import Mathlib

/-!
# ai-bias-detector: the client-to-backend analysis contract

A shallow embedding of the two JavaScript modules that talk to the backend:

* `src/api-client.js` and `src/bias-detector-frontend/src/api-client.js`
  (the `BiasAPI` object), and
* `runBiasAnalysis` of `src/bias-detector-frontend/src/App.js` (and the copy of it
  at the end of `src/api-client.js`).

JavaScript values are the inductive type `JSValue`; strings are sequences of
Unicode code points (Lean `String`), numbers are IEEE-754 binary64 bit patterns.
An `async` function is a resumption `Prog α`: a tree of effects whose only
suspension point is `await fetch(...)`.  `Prog.run` executes such a tree to
completion against a backend, threading the view state and the observable
effects (requests issued, alerts raised, console output) through a `World`;
`Prog.advance` executes it up to its next `await fetch(...)`, and
`Frontend.Session` is the mounted component with its suspended handlers, moved
by user events and by the completion of requests.
-/

namespace BiasDetector

/-! ## JavaScript values -/

/-- A JavaScript value as far as JSON data and `undefined` go.  `number` holds the
IEEE-754 binary64 bit pattern; `object` holds the own properties in enumeration
order (the first binding of a key is the property). -/
inductive JSValue where
  | undefined
  | null
  | bool (b : Bool)
  | number (bits : Nat)
  | string (s : String)
  | array (items : List JSValue)
  | object (props : List (String × JSValue))

/-- A thrown value: an error object with its `name` and `message`. -/
structure JSError where
  name : String
  message : String
deriving DecidableEq, Repr

deriving instance DecidableEq for Except

namespace JSValue

mutual
/-- Equality of values is decidable. -/
def decEq : (a b : JSValue) → Decidable (a = b)
  | undefined, undefined => isTrue rfl
  | null, null => isTrue rfl
  | bool a, bool b =>
      if h : a = b then isTrue (by rw [h]) else isFalse (by intro e; cases e; exact h rfl)
  | number a, number b =>
      if h : a = b then isTrue (by rw [h]) else isFalse (by intro e; cases e; exact h rfl)
  | string a, string b =>
      if h : a = b then isTrue (by rw [h]) else isFalse (by intro e; cases e; exact h rfl)
  | array a, array b =>
      match decEqItems a b with
      | isTrue h => isTrue (by rw [h])
      | isFalse h => isFalse (by intro e; cases e; exact h rfl)
  | object a, object b =>
      match decEqProps a b with
      | isTrue h => isTrue (by rw [h])
      | isFalse h => isFalse (by intro e; cases e; exact h rfl)
  | undefined, null | undefined, bool _ | undefined, number _ | undefined, string _
  | undefined, array _ | undefined, object _
  | null, undefined | null, bool _ | null, number _ | null, string _ | null, array _
  | null, object _
  | bool _, undefined | bool _, null | bool _, number _ | bool _, string _ | bool _, array _
  | bool _, object _
  | number _, undefined | number _, null | number _, bool _ | number _, string _
  | number _, array _ | number _, object _
  | string _, undefined | string _, null | string _, bool _ | string _, number _
  | string _, array _ | string _, object _
  | array _, undefined | array _, null | array _, bool _ | array _, number _
  | array _, string _ | array _, object _
  | object _, undefined | object _, null | object _, bool _ | object _, number _
  | object _, string _ | object _, array _ => isFalse (by intro e; cases e)
/-- Equality of element lists is decidable. -/
def decEqItems : (a b : List JSValue) → Decidable (a = b)
  | [], [] => isTrue rfl
  | [], _ :: _ => isFalse (by intro e; cases e)
  | _ :: _, [] => isFalse (by intro e; cases e)
  | x :: xs, y :: ys =>
      match decEq x y, decEqItems xs ys with
      | isTrue h, isTrue t => isTrue (by rw [h, t])
      | isFalse h, _ => isFalse (by intro e; cases e; exact h rfl)
      | _, isFalse t => isFalse (by intro e; cases e; exact t rfl)
/-- Equality of property lists is decidable. -/
def decEqProps : (a b : List (String × JSValue)) → Decidable (a = b)
  | [], [] => isTrue rfl
  | [], _ :: _ => isFalse (by intro e; cases e)
  | _ :: _, [] => isFalse (by intro e; cases e)
  | (k, x) :: xs, (l, y) :: ys =>
      if hk : k = l then
        match decEq x y, decEqProps xs ys with
        | isTrue h, isTrue t => isTrue (by rw [hk, h, t])
        | isFalse h, _ => isFalse (by intro e; cases e; exact h rfl)
        | _, isFalse t => isFalse (by intro e; cases e; exact t rfl)
      else isFalse (by intro e; cases e; exact hk rfl)
end

instance : DecidableEq JSValue := decEq

/-- Biased exponent field of a binary64 bit pattern. -/
def exponentBits (bits : Nat) : Nat := (bits / 2 ^ 52) % 2048

/-- Fraction field of a binary64 bit pattern. -/
def fractionBits (bits : Nat) : Nat := bits % 2 ^ 52

/-- The bit pattern is a NaN. -/
def isNaN (bits : Nat) : Bool := exponentBits bits == 2047 && fractionBits bits != 0

/-- The bit pattern is `+0` or `-0`. -/
def isZero (bits : Nat) : Bool := exponentBits bits == 0 && fractionBits bits == 0

/-- The bit pattern is neither a NaN nor an infinity. -/
def isFinite (bits : Nat) : Bool := exponentBits bits != 2047

/-- ECMAScript `ToBoolean`: `undefined`, `null`, `false`, `±0`, `NaN` and `""` are
falsy, everything else (every array and object included) is truthy. -/
def toBoolean : JSValue → Bool
  | undefined => false
  | null => false
  | bool b => b
  | number bits => !(isZero bits || isNaN bits)
  | string s => !s.data.isEmpty
  | array _ => true
  | object _ => true

/-- The operator `a || b`: `a` when it is truthy, else `b`. -/
def or (a b : JSValue) : JSValue := if a.toBoolean then a else b

/-- The error a property read on `undefined` or `null` throws (the wording of the
message is the engine's; nothing in the source reads it). -/
def propertyReadError (v : String) (key : String) : JSError :=
  ⟨"TypeError", "Cannot read properties of " ++ v ++ " (reading " ++ key ++ ")"⟩

/-- First binding of `key` in a property list. -/
def lookup (key : String) : List (String × JSValue) → JSValue
  | [] => undefined
  | (k, v) :: rest => if k = key then v else lookup key rest

/-- The member access `v.key`, for a property name that no built-in prototype
defines (every name the source reads is such a name): it throws a `TypeError` on
`undefined` and `null`, reads the own property of an object, and is `undefined`
on a primitive and on an array. -/
def getProp (v : JSValue) (key : String) : Except JSError JSValue :=
  match v with
  | undefined => .error (propertyReadError "undefined" key)
  | null => .error (propertyReadError "null" key)
  | object props => .ok (lookup key props)
  | _ => .ok undefined

/-- The optional chain `v?.key`: `undefined` when `v` is `undefined` or `null`,
the member access otherwise. -/
def optGetProp (v : JSValue) (key : String) : Except JSError JSValue :=
  match v with
  | undefined => .ok undefined
  | null => .ok undefined
  | w => getProp w key

end JSValue

/-! ## Built-ins: `String.prototype.trim` and `JSON.stringify` -/

/-- ECMAScript `WhiteSpace` and `LineTerminator` code points, the ones `trim`
strips. -/
def isWhiteSpace (c : Char) : Bool :=
  let n := c.toNat
  n == 0x09 || n == 0x0A || n == 0x0B || n == 0x0C || n == 0x0D || n == 0x20 ||
  n == 0xA0 || n == 0x1680 || (0x2000 ≤ n && n ≤ 0x200A) || n == 0x2028 ||
  n == 0x2029 || n == 0x202F || n == 0x205F || n == 0x3000 || n == 0xFEFF

/-- The list form of `trim`: drop white space at both ends. -/
def trimChars (cs : List Char) : List Char :=
  ((cs.dropWhile isWhiteSpace).reverse.dropWhile isWhiteSpace).reverse

/-- The method `String.prototype.trim`. -/
def trim (s : String) : String := ⟨trimChars s.data⟩

/-- Lower-case hexadecimal digit. -/
def hexDigit (n : Nat) : Char :=
  if n < 10 then Char.ofNat (48 + n) else Char.ofNat (87 + n)

/-- One code point inside a JSON string literal (ECMAScript `QuoteJSONString`). -/
def quoteChar (c : Char) : List Char :=
  let n := c.toNat
  if n == 0x08 then [Char.ofNat 92, Char.ofNat 98]
  else if n == 0x09 then [Char.ofNat 92, Char.ofNat 116]
  else if n == 0x0A then [Char.ofNat 92, Char.ofNat 110]
  else if n == 0x0C then [Char.ofNat 92, Char.ofNat 102]
  else if n == 0x0D then [Char.ofNat 92, Char.ofNat 114]
  else if n == 0x22 then [Char.ofNat 92, Char.ofNat 34]
  else if n == 0x5C then [Char.ofNat 92, Char.ofNat 92]
  else if n < 0x20 then
    [Char.ofNat 92, Char.ofNat 117, Char.ofNat 48, Char.ofNat 48, hexDigit (n / 16), hexDigit (n % 16)]
  else [c]

/-- ECMAScript `QuoteJSONString`: the string between double quotes, escaped.  A `Char`
is never a lone surrogate, so the escape of lone surrogates has no case here. -/
def quoteJSONString (s : String) : String :=
  ⟨Char.ofNat 34 :: (s.data.flatMap quoteChar ++ [Char.ofNat 34])⟩

mutual
/-- The call `JSON.stringify(v)` with no replacer and no indentation; `none` is the
result `undefined`.  `numberToString` is ECMAScript `Number::toString` on finite
numbers. -/
def JSON_stringify (numberToString : Nat → String) : JSValue → Option String
  | .undefined => none
  | .null => some "null"
  | .bool b => some (if b then "true" else "false")
  | .number bits => some (if JSValue.isFinite bits then numberToString bits else "null")
  | .string s => some (quoteJSONString s)
  | .array items => some ("[" ++ ",".intercalate (stringifyItems numberToString items) ++ "]")
  | .object props =>
      some ("\x7b" ++ ",".intercalate (stringifyProps numberToString props) ++ "\x7d")
/-- Elements of an array: an `undefined` element is written `null`. -/
def stringifyItems (numberToString : Nat → String) : List JSValue → List String
  | [] => []
  | v :: rest =>
      (JSON_stringify numberToString v).getD "null" :: stringifyItems numberToString rest
/-- Members of an object: a property whose value is `undefined` is left out. -/
def stringifyProps (numberToString : Nat → String) : List (String × JSValue) → List String
  | [] => []
  | (k, v) :: rest =>
      match JSON_stringify numberToString v with
      | none => stringifyProps numberToString rest
      | some s => (quoteJSONString k ++ ":" ++ s) :: stringifyProps numberToString rest
end

/-! ## The network and the view -/

/-- The second argument of `fetch(url, init)`. -/
structure RequestInit where
  method : Option String
  headers : List (String × String)
  body : Option String
deriving DecidableEq, Repr

/-- An HTTP request as `fetch` issues it. -/
structure Request where
  url : String
  method : String
  headers : List (String × String)
  body : Option String
deriving DecidableEq, Repr

/-- The request `fetch(url, init)` issues: without `init` it is a `GET` with no
header set by the caller and no body. -/
def Request.ofFetchArgs (url : String) (init : Option RequestInit) : Request :=
  match init with
  | none => ⟨url, "GET", [], none⟩
  | some i => ⟨url, i.method.getD "GET", i.headers, i.body⟩

/-- A response: its HTTP status and what `response.json()` settles with, the parsed
body or the error of the parse. -/
structure Response where
  status : Nat
  body : Except JSError JSValue

/-- How the promise of `fetch` settles: rejected (network failure) or resolved with
a response, whatever its status. -/
inductive FetchOutcome where
  | rejected (e : JSError)
  | resolved (r : Response)

/-- The backend service, unseen by the client: it decides the outcome of a request. -/
abbrev Backend := Request → FetchOutcome

/-- The object passed to `setAnalysisResult`. -/
structure AnalysisResult where
  input : String
  biasesDetected : JSValue
  severity : JSValue
  confidence : JSValue
  originalResponse : String
  correctedResponse : JSValue
  reasoning : JSValue
  recommendations : JSValue
deriving DecidableEq

/-- The `useState` cells of the component `CognitiveBiasAI`. -/
structure ViewState where
  activeTab : String
  selectedBias : Option String
  testInput : String
  analysisResult : Option AnalysisResult
  isAnalyzing : Bool
deriving DecidableEq

/-- The state of a freshly mounted component. -/
def ViewState.initial : ViewState := ⟨"detection", none, "", none, false⟩

/-- The calls with an effect outside the function that `runBiasAnalysis` makes, other
than `fetch`. -/
inductive Action where
  | setIsAnalyzing (b : Bool)
  | setAnalysisResult (r : AnalysisResult)
  | consoleError (label : String) (e : JSError)
  | alert (msg : String)
deriving DecidableEq

/-- What an observer sees, in order. -/
inductive Event where
  | request (req : Request)
  | action (a : Action)
deriving DecidableEq

/-- The view state and everything that happened so far, oldest first. -/
structure World where
  view : ViewState
  trace : List Event
deriving DecidableEq

/-- A freshly mounted component and an empty history. -/
def World.initial : World := ⟨ViewState.initial, []⟩

/-- Effect of an action on the view state: the two setters write their cell. -/
def Action.apply : Action → ViewState → ViewState
  | .setIsAnalyzing b, v => { v with isAnalyzing := b }
  | .setAnalysisResult r, v => { v with analysisResult := some r }
  | .consoleError _ _, v => v
  | .alert _, v => v

/-- Perform an action: update the view and record it. -/
def World.perform (w : World) (a : Action) : World :=
  ⟨a.apply w.view, w.trace ++ [.action a]⟩

/-- Record an issued request. -/
def World.issue (w : World) (req : Request) : World :=
  ⟨w.view, w.trace ++ [.request req]⟩

/-- Requests in a trace, oldest first. -/
def requestsOf (t : List Event) : List Request :=
  t.filterMap fun e => match e with
    | .request r => some r
    | .action _ => none

/-- Alert messages in a trace, oldest first. -/
def alertsOf (t : List Event) : List String :=
  t.filterMap fun e => match e with
    | .action (.alert m) => some m
    | _ => none

/-- Arguments of the calls of `setAnalysisResult` in a trace, oldest first. -/
def resultsSetOf (t : List Event) : List AnalysisResult :=
  t.filterMap fun e => match e with
    | .action (.setAnalysisResult r) => some r
    | _ => none

/-- All requests issued so far. -/
def World.requests (w : World) : List Request := requestsOf w.trace

/-- All alerts raised so far. -/
def World.alerts (w : World) : List String := alertsOf w.trace

/-! ## Asynchronous functions -/

/-- An `async` function body: it returns, throws, performs an action and goes on, or
issues a request and is suspended until the promise of `fetch` settles. -/
inductive Prog (α : Type) where
  | ret (a : α)
  | raise (e : JSError)
  | request (req : Request) (k : FetchOutcome → Prog α)
  | act (a : Action) (k : Prog α)

namespace Prog

/-- Sequencing: a throw skips what follows. -/
def bind {α β : Type} : Prog α → (α → Prog β) → Prog β
  | ret a, f => f a
  | raise e, _ => raise e
  | request req k, f => request req (fun o => (k o).bind f)
  | act a k, f => act a (k.bind f)

/-- The statement `try { p } catch (e) { h e }`. -/
def tryCatch {α : Type} : Prog α → (JSError → Prog α) → Prog α
  | ret a, _ => ret a
  | raise e, h => h e
  | request req k, h => request req (fun o => (k o).tryCatch h)
  | act a k, h => act a (k.tryCatch h)

instance : Monad Prog where
  pure := ret
  bind := bind

instance : MonadExcept JSError Prog where
  throw := raise
  tryCatch := tryCatch

/-- Embed a computation without effects that may throw. -/
def ofExcept {α : Type} : Except JSError α → Prog α
  | .ok a => ret a
  | .error e => raise e

/-- Run to completion against a backend: the final world and how the promise of the
async function settles (`ok` resolved, `error` rejected). -/
def run {α : Type} (backend : Backend) : Prog α → World → World × Except JSError α
  | ret a, w => (w, .ok a)
  | raise e, w => (w, .error e)
  | request req k, w => (k (backend req)).run backend (w.issue req)
  | act a k, w => k.run backend (w.perform a)

end Prog

/-- The expression `await fetch(url, init)`: issue the request; a rejection is thrown
at the `await`. -/
def fetch (url : String) (init : Option RequestInit) : Prog Response :=
  .request (Request.ofFetchArgs url init) fun o =>
    match o with
    | .rejected e => .raise e
    | .resolved r => .ret r

/-- The call `response.json()`, awaited by the caller. -/
def Response.json (response : Response) : Prog JSValue := Prog.ofExcept response.body

/-- The call `setIsAnalyzing(b)`. -/
@[reducible] def setIsAnalyzing (b : Bool) : Prog Unit := .act (.setIsAnalyzing b) (.ret ())

/-- The call `setAnalysisResult(r)`. -/
@[reducible] def setAnalysisResult (r : AnalysisResult) : Prog Unit := .act (.setAnalysisResult r) (.ret ())

/-- The call `console.error(label, error)`. -/
@[reducible] def consoleError (label : String) (e : JSError) : Prog Unit := .act (.consoleError label e) (.ret ())

/-- The call `alert(msg)`. -/
@[reducible] def alert (msg : String) : Prog Unit := .act (.alert msg) (.ret ())

/-! ## `src/bias-detector-frontend/src/api-client.js` and `App.js` -/

namespace Frontend

/-- The constant `API_BASE` of `bias-detector-frontend/src/api-client.js`. -/
def API_BASE : String := "http://localhost:5000/api"

namespace BiasAPI

/-- The method `BiasAPI.detectBias` of the frontend client. -/
def detectBias (numberToString : Nat → String) (text : JSValue) : Prog JSValue := do
  let response ← fetch (API_BASE ++ "/detect") (some {
    method := some "POST",
    headers := [("Content-Type", "application/json")],
    body := JSON_stringify numberToString (.object [("text", text)]) })
  response.json

/-- The method `BiasAPI.fullAnalysis` of the frontend client. -/
def fullAnalysis (numberToString : Nat → String) (text : JSValue) : Prog JSValue := do
  let response ← fetch (API_BASE ++ "/analyze") (some {
    method := some "POST",
    headers := [("Content-Type", "application/json")],
    body := JSON_stringify numberToString (.object [("text", text)]) })
  response.json

/-- The method `BiasAPI.getStats` of the frontend client. -/
def getStats : Prog JSValue := do
  let response ← fetch (API_BASE ++ "/stats") none
  response.json

end BiasAPI

/-- The object literal that `runBiasAnalysis` passes to `setAnalysisResult`, its
properties evaluated in source order; a property read on `undefined` or `null`
throws. -/
def analysisObject (testInput : String) (result : JSValue) : Except JSError AnalysisResult := do
  let biasesDetected ← (← result.getProp "detection").getProp "biases_detected"
  let severity ← (← result.getProp "detection").getProp "severity"
  let confidence ← (← result.getProp "detection").getProp "confidence"
  let corrected ← (← result.getProp "correction").optGetProp "corrected"
  let reasoning ← (← result.getProp "detection").getProp "reasoning"
  let recommendations ← (← result.getProp "correction").optGetProp "recommendations"
  pure {
    input := testInput,
    biasesDetected := biasesDetected,
    severity := severity,
    confidence := confidence,
    originalResponse := testInput,
    correctedResponse := corrected.or (.string testInput),
    reasoning := reasoning,
    recommendations := recommendations.or (.array []) }

/-- The handler `runBiasAnalysis` of `App.js`; `testInput` is the state cell as the
closure of the handler captured it. -/
def runBiasAnalysis (numberToString : Nat → String) (testInput : String) : Prog Unit :=
  if !(JSValue.string (trim testInput)).toBoolean then pure ()
  else do
    setIsAnalyzing true
    try
      let result ← BiasAPI.fullAnalysis numberToString (.string testInput)
      setAnalysisResult (← Prog.ofExcept (analysisObject testInput result))
    catch error =>
      consoleError "Analysis failed:" error
      alert "API Error: Make sure Python API is running on port 5000!"
    setIsAnalyzing false

/-- One trigger of `runBiasAnalysis`: the handler of the current render runs to
completion against the backend. -/
def trigger (numberToString : Nat → String) (backend : Backend) (w : World) :
    World × Except JSError Unit :=
  (runBiasAnalysis numberToString w.view.testInput).run backend w

end Frontend

/-! ## `src/api-client.js` -/

namespace ApiClient

/-- The constant `API_BASE` of `src/api-client.js`. -/
def API_BASE : String := "http://localhost:5000/api"

namespace BiasAPI

/-- The method `BiasAPI.detectBias` of `src/api-client.js`. -/
def detectBias (numberToString : Nat → String) (text : JSValue) : Prog JSValue := do
  let response ← fetch (API_BASE ++ "/detect") (some {
    method := some "POST",
    headers := [("Content-Type", "application/json")],
    body := JSON_stringify numberToString (.object [("text", text)]) })
  response.json

/-- The method `BiasAPI.correctBias` of `src/api-client.js`. -/
def correctBias (numberToString : Nat → String) (text biases : JSValue) : Prog JSValue := do
  let response ← fetch (API_BASE ++ "/correct") (some {
    method := some "POST",
    headers := [("Content-Type", "application/json")],
    body := JSON_stringify numberToString (.object [("text", text), ("biases", biases)]) })
  response.json

/-- The method `BiasAPI.fullAnalysis` of `src/api-client.js`. -/
def fullAnalysis (numberToString : Nat → String) (text : JSValue) : Prog JSValue := do
  let response ← fetch (API_BASE ++ "/analyze") (some {
    method := some "POST",
    headers := [("Content-Type", "application/json")],
    body := JSON_stringify numberToString (.object [("text", text)]) })
  response.json

/-- The method `BiasAPI.getStats` of `src/api-client.js`. -/
def getStats : Prog JSValue := do
  let response ← fetch (API_BASE ++ "/stats") none
  response.json

/-- The method `BiasAPI.generateTrainingData` of `src/api-client.js`. -/
def generateTrainingData (numberToString : Nat → String) (numExamples : JSValue) :
    Prog JSValue := do
  let response ← fetch (API_BASE ++ "/training/generate") (some {
    method := some "POST",
    headers := [("Content-Type", "application/json")],
    body := JSON_stringify numberToString (.object [("num_examples", numExamples)]) })
  response.json

end BiasAPI

/-- The object literal that `runBiasAnalysis` passes to `setAnalysisResult`, its
properties evaluated in source order; a property read on `undefined` or `null`
throws. -/
def analysisObject (testInput : String) (result : JSValue) : Except JSError AnalysisResult := do
  let biasesDetected ← (← result.getProp "detection").getProp "biases_detected"
  let severity ← (← result.getProp "detection").getProp "severity"
  let confidence ← (← result.getProp "detection").getProp "confidence"
  let corrected ← (← result.getProp "correction").optGetProp "corrected"
  let reasoning ← (← result.getProp "detection").getProp "reasoning"
  let recommendations ← (← result.getProp "correction").optGetProp "recommendations"
  pure {
    input := testInput,
    biasesDetected := biasesDetected,
    severity := severity,
    confidence := confidence,
    originalResponse := testInput,
    correctedResponse := corrected.or (.string testInput),
    reasoning := reasoning,
    recommendations := recommendations.or (.array []) }

/-- The function `runBiasAnalysis` at the end of `src/api-client.js`. -/
def runBiasAnalysis (numberToString : Nat → String) (testInput : String) : Prog Unit :=
  if !(JSValue.string (trim testInput)).toBoolean then pure ()
  else do
    setIsAnalyzing true
    try
      let result ← BiasAPI.fullAnalysis numberToString (.string testInput)
      setAnalysisResult (← Prog.ofExcept (analysisObject testInput result))
    catch error =>
      consoleError "Analysis failed:" error
      alert "Failed to analyze. Make sure the API is running!"
    setIsAnalyzing false

end ApiClient

/-- An operation of the API client together with its arguments. -/
inductive Call where
  | detectBias (text : JSValue)
  | correctBias (text biases : JSValue)
  | fullAnalysis (text : JSValue)
  | getStats
  | generateTrainingData (numExamples : JSValue)

/-- The call as `src/api-client.js` runs it. -/
def Call.prog (numberToString : Nat → String) : Call → Prog JSValue
  | .detectBias text => ApiClient.BiasAPI.detectBias numberToString text
  | .correctBias text biases => ApiClient.BiasAPI.correctBias numberToString text biases
  | .fullAnalysis text => ApiClient.BiasAPI.fullAnalysis numberToString text
  | .getStats => ApiClient.BiasAPI.getStats
  | .generateTrainingData n => ApiClient.BiasAPI.generateTrainingData numberToString n

/-- The call as the frontend client runs it; it has three of the five operations. -/
def Call.frontendProg (numberToString : Nat → String) : Call → Option (Prog JSValue)
  | .detectBias text => some (Frontend.BiasAPI.detectBias numberToString text)
  | .fullAnalysis text => some (Frontend.BiasAPI.fullAnalysis numberToString text)
  | .getStats => some Frontend.BiasAPI.getStats
  | _ => none

/-- What the caller of an API operation gets once the request has settled: the error
of a rejected `fetch`, else what `response.json()` settles with. -/
def FetchOutcome.settle : FetchOutcome → Except JSError JSValue
  | .rejected e => .error e
  | .resolved r => r.body

/-- The request that `BiasAPI.fullAnalysis(testInput)` issues, in both copies of the
client. -/
def analyzeRequest (numberToString : Nat → String) (testInput : String) : Request :=
  ⟨"http://localhost:5000/api/analyze", "POST", [("Content-Type", "application/json")],
    JSON_stringify numberToString (.object [("text", .string testInput)])⟩

/-! ## The view as a reactive system -/

/-- How far an `async` function gets without waiting: it has settled, or it is suspended
at an `await fetch(...)` whose request is in flight. -/
inductive Suspended (α : Type) where
  | done (r : Except JSError α)
  | waiting (req : Request) (k : FetchOutcome → Prog α)

/-- Run until the function settles or reaches its next `await fetch(...)`; the request is
issued before the function is suspended. -/
def Prog.advance {α : Type} : Prog α → World → World × Suspended α
  | .ret a, w => (w, .done (.ok a))
  | .raise e, w => (w, .done (.error e))
  | .request req k, w => (w.issue req, .waiting req k)
  | .act a k, w => k.advance (w.perform a)

namespace Frontend

/-- An element of the array `biasTypes` of `App.js`. -/
structure BiasType where
  id : String
  name : String
  description : String
  severity : String
  examples : List String
  detectionRate : Nat
  color : String
deriving DecidableEq, Repr

/-- The array `biasTypes` of `App.js`. -/
def biasTypes : List BiasType := [
  ⟨"confirmation", "Confirmation Bias", "AI favors information confirming existing beliefs",
    "high",
    ["Job screening favoring certain demographics", "News recommendation echo chambers"],
    78, "#ef4444"⟩,
  ⟨"anchoring", "Anchoring Bias", "Over-reliance on first piece of information", "medium",
    ["Price estimation based on initial value", "First impression in resume screening"],
    65, "#f59e0b"⟩,
  ⟨"availability", "Availability Heuristic", "Overweighting recent or memorable events",
    "high",
    ["Risk assessment after viral news", "Trend prediction from limited samples"],
    82, "#8b5cf6"⟩,
  ⟨"groupthink", "Groupthink", "Consensus-seeking suppresses alternatives", "medium",
    ["Popular opinion amplification", "Majority viewpoint dominance"],
    71, "#3b82f6"⟩,
  ⟨"recency", "Recency Bias", "Recent information weighted too heavily", "medium",
    ["Stock prediction from latest data only", "Customer behavior based on last interaction"],
    88, "#10b981"⟩,
  ⟨"survivorship", "Survivorship Bias", "Focusing only on successful cases", "critical",
    ["Business advice from only successful startups", "Medical treatment from survivors only"],
    56, "#ec4899"⟩]

/-- The ids of the navigation tabs, in the order of the array the header maps over. -/
def tabIds : List String := ["detection", "training", "analysis", "impact", "research"]

/-- The attribute `disabled` of the Analyze button: `isAnalyzing || !testInput.trim()`. -/
def analyzeDisabled (v : ViewState) : Bool :=
  v.isAnalyzing || !(JSValue.string (trim v.testInput)).toBoolean

/-- A call of `runBiasAnalysis` that is suspended at its `await`: the request in flight
and the rest of the handler. -/
structure Pending where
  request : Request
  resume : FetchOutcome → Prog Unit

/-- The mounted component with its history, and the handler calls that are suspended. -/
structure Session where
  world : World
  pending : List Pending

/-- A freshly mounted component: nothing has happened, nothing is in flight. -/
def Session.initial : Session := ⟨World.initial, []⟩

/-- Start or resume a handler: it runs until it settles or waits for a request; the
promise it returns is dropped, as `onClick` does. -/
def Session.spawn (s : Session) (p : Prog Unit) : Session :=
  match p.advance s.world with
  | (w, .done _) => ⟨w, s.pending⟩
  | (w, .waiting req k) => ⟨w, s.pending ++ [⟨req, k⟩]⟩

/-- What can happen to the mounted component: the user types in the text area, clicks the
Analyze button, clicks a navigation tab or a card of the bias grid, or the request of a
suspended handler settles. -/
inductive SessionEvent where
  | changeInput (value : String)
  | clickAnalyze
  | clickTab (id : String)
  | clickBias (id : String)
  | settle (index : Nat) (outcome : FetchOutcome)

/-- One event.  An element reacts only while it is rendered: the text area and the
Analyze button under the tab `analysis`, the bias grid under the tab `detection`; a
disabled button does not fire `onClick`. -/
def Session.step (numberToString : Nat → String) (s : Session) : SessionEvent → Session
  | .changeInput value =>
      if s.world.view.activeTab = "analysis" then
        { s with world := { s.world with view := { s.world.view with testInput := value } } }
      else s
  | .clickAnalyze =>
      if s.world.view.activeTab = "analysis" ∧ analyzeDisabled s.world.view = false then
        s.spawn (runBiasAnalysis numberToString s.world.view.testInput)
      else s
  | .clickTab id =>
      if id ∈ tabIds then
        { s with world := { s.world with view := { s.world.view with activeTab := id } } }
      else s
  | .clickBias id =>
      if s.world.view.activeTab = "detection" ∧ id ∈ biasTypes.map (fun bias => bias.id) then
        { s with world := { s.world with view := { s.world.view with
            selectedBias := if some id = s.world.view.selectedBias then none else some id } } }
      else s
  | .settle index outcome =>
      match s.pending.get? index with
      | none => s
      | some p => Session.spawn ⟨s.world, s.pending.eraseIdx index⟩ (p.resume outcome)

/-- A sequence of events, oldest first. -/
def Session.steps (numberToString : Nat → String) (s : Session) (events : List SessionEvent) :
    Session :=
  events.foldl (Session.step numberToString) s

end Frontend

/-- The invariant of the sessions reachable from a fresh mount: nothing is in flight, or
the busy flag is set and exactly one handler is suspended, at the `/analyze` request, and
that handler clears the busy flag and settles, without a further request, as soon as it
is resumed. -/
def Frontend.Session.Guarded (s : Frontend.Session) : Prop :=
  s.pending = [] ∨
    (s.world.view.isAnalyzing = true ∧
      ∃ p, s.pending = [p] ∧ p.request.url = "http://localhost:5000/api/analyze" ∧
        ∀ o w, ∃ w1 r, (p.resume o).advance w = (w1, .done r) ∧ w1.view.isAnalyzing = false)

/-! ## Rendering the detected biases -/

namespace Frontend

/-- The comparison `b.id === biasId` of the render callback: `b.id` is a string, and a
string is strictly equal to a value exactly when the value is the same string. -/
def idStrictEquals (id : String) (biasId : JSValue) : Bool :=
  match biasId with
  | .string s => id == s
  | _ => false

/-- The lookup `biasTypes.find((b) => b.id === biasId)`: the first entry with that id;
`none` is the result `undefined`. -/
def findBias (biasId : JSValue) : Option BiasType :=
  biasTypes.find? fun b => idStrictEquals b.id biasId

/-- The expression `bias.name` of the render callback, `bias` being the result of the
lookup: reading a property of `undefined` throws. -/
def biasName (biasId : JSValue) : Except JSError String :=
  match findBias biasId with
  | some bias => .ok bias.name
  | none => .error (JSValue.propertyReadError "undefined" "name")

end Frontend

/-- An event with the text of an alert blanked, to compare histories up to that text. -/
def Event.withoutAlertText : Event → Event
  | .action (.alert _) => .action (.alert "")
  | e => e

/-! ## Reading a JSON string back -/

/-- Value of a lower-case hexadecimal digit. -/
def hexValue (c : Char) : Nat :=
  if c.toNat < 58 then c.toNat - 48 else c.toNat - 87

/-- The code point for the character after the backslash of a two-character escape. -/
def unescape (c : Char) : Char :=
  let n := c.toNat
  if n == 98 then Char.ofNat 0x08
  else if n == 116 then Char.ofNat 0x09
  else if n == 110 then Char.ofNat 0x0A
  else if n == 102 then Char.ofNat 0x0C
  else if n == 114 then Char.ofNat 0x0D
  else c

/-- Read the first code point of the inside of a JSON string literal, as a JSON parser
does: a plain character, a two-character escape, or a `\u` escape of four digits.
The result is the code point and the rest of the text. -/
def unquoteHead : List Char → Option (Char × List Char)
  | [] => none
  | c :: rest =>
      if c.toNat == 92 then
        match rest with
        | [] => none
        | d :: rest1 =>
            if d.toNat == 117 then
              match rest1 with
              | _ :: _ :: h :: l :: rest2 =>
                  some (Char.ofNat (16 * hexValue h + hexValue l), rest2)
              | _ => none
            else some (unescape d, rest1)
      else some (c, rest)

/-! ## Sample data -/

namespace Sample

/-- A stand-in for `Number::toString`, used where no number is serialized. -/
def numberToString : Nat → String := fun _ => "0"

/-- The detection object of the specification's example (`confidence` is 80). -/
def detectionProps : List (String × JSValue) :=
  [("biases_detected", .array [.string "confirmation"]),
   ("severity", .string "high"),
   ("confidence", .number 0x4054000000000000),
   ("reasoning", .array [.string "r1"])]

/-- The correction object of the specification's example. -/
def correctionProps : List (String × JSValue) :=
  [("corrected", .string "fixed"), ("recommendations", .array [.string "rec1"])]

/-- The properties of the response of the specification's example. -/
def fullProps : List (String × JSValue) :=
  [("detection", .object detectionProps), ("correction", .object correctionProps)]

/-- The response of the specification's example: a detection and a correction. -/
def fullResponse : JSValue := .object fullProps

/-- The properties of a response with a detection and no `correction` field. -/
def detectionOnlyProps : List (String × JSValue) :=
  [("detection", .object detectionProps)]

/-- A response with a detection and no `correction` field. -/
def detectionOnly : JSValue := .object detectionOnlyProps

/-- A response whose correction carries an empty `corrected` text. -/
def emptyCorrected : JSValue :=
  .object [
    ("detection", .object detectionProps),
    ("correction", .object [
      ("corrected", .string ""),
      ("recommendations", .array [.string "rec1"])])]

/-- A backend that answers every request with status 200 and the given JSON body. -/
def respond (v : JSValue) : Backend := fun _ => .resolved ⟨200, .ok v⟩

/-- A backend that is not running: every `fetch` rejects. -/
def down : Backend := fun _ => .rejected ⟨"TypeError", "Failed to fetch"⟩

/-- A backend whose response body is not JSON: `response.json()` rejects. -/
def garbled : Backend :=
  fun _ => .resolved ⟨502, .error ⟨"SyntaxError", "Unexpected token < in JSON at position 0"⟩⟩

/-- A mounted component whose text area holds `text`. -/
def typed (text : String) : World := ⟨{ ViewState.initial with testInput := text }, []⟩

end Sample

/-! ## Execution lemmas -/

theorem Prog.run_bind {α β : Type} (b : Backend) (p : Prog α) (f : α → Prog β) (w : World) :
    (p >>= f).run b w =
      match p.run b w with
      | (w1, .ok a) => (f a).run b w1
      | (w1, .error e) => (w1, .error e) := by
  show (Prog.bind p f).run b w = _
  induction p generalizing w with
  | ret a => simp [Prog.bind, Prog.run]
  | raise e => simp [Prog.bind, Prog.run]
  | request req k ih => simp only [Prog.bind, Prog.run]; exact ih _ _
  | act a k ih => simp only [Prog.bind, Prog.run]; exact ih _

theorem Prog.run_tryCatch {α : Type} (b : Backend) (p : Prog α) (h : JSError → Prog α)
    (w : World) :
    (MonadExcept.tryCatch p h).run b w =
      match p.run b w with
      | (w1, .ok a) => (w1, .ok a)
      | (w1, .error e) => (h e).run b w1 := by
  show (Prog.tryCatch p h).run b w = _
  induction p generalizing w with
  | ret a => simp [Prog.tryCatch, Prog.run]
  | raise e => simp [Prog.tryCatch, Prog.run]
  | request req k ih => simp only [Prog.tryCatch, Prog.run]; exact ih _ _
  | act a k ih => simp only [Prog.tryCatch, Prog.run]; exact ih _

theorem Prog.run_pure {α : Type} (b : Backend) (a : α) (w : World) :
    (pure a : Prog α).run b w = (w, .ok a) := rfl

theorem Prog.run_act (b : Backend) (a : Action) (w : World) :
    (Prog.act a (.ret ())).run b w = (w.perform a, .ok ()) := rfl

theorem Prog.run_ofExcept {α : Type} (b : Backend) (r : Except JSError α) (w : World) :
    (Prog.ofExcept r).run b w = (w, r) := by
  cases r <;> rfl

/-- Awaiting `fetch` and then `response.json()` issues the one request and settles as
the backend decides. -/
theorem run_fetch_json (b : Backend) (url : String) (init : Option RequestInit) (w : World) :
    (fetch url init >>= fun response => response.json).run b w =
      (w.issue (Request.ofFetchArgs url init), (b (Request.ofFetchArgs url init)).settle) := by
  rw [Prog.run_bind]
  simp only [fetch, Prog.run]
  cases b (Request.ofFetchArgs url init) with
  | rejected e => rfl
  | resolved r => simp [Prog.run, Response.json, Prog.run_ofExcept, FetchOutcome.settle]

theorem trimChars_eq_nil_iff (cs : List Char) :
    trimChars cs = [] ↔ ∀ c ∈ cs, isWhiteSpace c = true := by
  unfold trimChars
  rw [List.reverse_eq_nil_iff, List.dropWhile_eq_nil_iff]
  constructor
  · intro h
    have hnil : cs.dropWhile isWhiteSpace = [] := by
      cases hd : cs.dropWhile isWhiteSpace with
      | nil => rfl
      | cons x xs =>
        have hx : isWhiteSpace x = true := h x (by simp [hd])
        have hne : cs.dropWhile isWhiteSpace ≠ [] := by simp [hd]
        have := List.head_dropWhile_not isWhiteSpace cs hne
        simp [hd] at this
        simp [this] at hx
    exact List.dropWhile_eq_nil_iff.mp hnil
  · intro h x hx
    rw [List.dropWhile_eq_nil_iff.mpr h] at hx
    simp at hx

/-- The guard `!testInput.trim()` holds exactly for the inputs made of white space only
(the empty one included). -/
theorem guard_eq_true_iff (t : String) :
    (!(JSValue.string (trim t)).toBoolean) = true ↔ ∀ c ∈ t.data, isWhiteSpace c = true := by
  simp only [JSValue.toBoolean, trim, Bool.not_not, List.isEmpty_iff]
  exact trimChars_eq_nil_iff t.data

theorem guard_eq_false_iff (t : String) :
    (!(JSValue.string (trim t)).toBoolean) = false ↔ ∃ c ∈ t.data, isWhiteSpace c = false := by
  rw [← Bool.not_eq_true, guard_eq_true_iff]
  simp

/-- The serialization of an object with the single property `text` holding a string. -/
theorem stringify_text_string (ns : Nat → String) (t : String) :
    JSON_stringify ns (.object [("text", .string t)]) =
      some ("\x7b\"text\":" ++ quoteJSONString t ++ "\x7d") := by
  have hq : quoteJSONString "text" = "\"text\"" := by decide
  have hl : "\x7b" ++ ("\"text\"" ++ ":") = "\x7b\"text\":" := by decide
  simp only [JSON_stringify, stringifyProps, String.intercalate, String.intercalate.go, hq]
  rw [← hl]
  simp only [String.append_assoc]

namespace Frontend

/-- The request that `BiasAPI.fullAnalysis(text)` issues. -/
theorem run_fullAnalysis (ns : Nat → String) (b : Backend) (text : JSValue) (w : World) :
    (BiasAPI.fullAnalysis ns text).run b w =
      (w.issue ⟨"http://localhost:5000/api/analyze", "POST",
          [("Content-Type", "application/json")],
          JSON_stringify ns (.object [("text", text)])⟩,
        (b ⟨"http://localhost:5000/api/analyze", "POST",
          [("Content-Type", "application/json")],
          JSON_stringify ns (.object [("text", text)])⟩).settle) := by
  have hurl : API_BASE ++ "/analyze" = "http://localhost:5000/api/analyze" := by decide
  unfold BiasAPI.fullAnalysis
  rw [run_fetch_json, hurl]
  rfl

/-- A blank input: the guard returns at once. -/
theorem runBiasAnalysis_blank (ns : Nat → String) (t : String)
    (h : ∀ c ∈ t.data, isWhiteSpace c = true) :
    runBiasAnalysis ns t = pure () := by
  unfold runBiasAnalysis
  rw [if_pos ((guard_eq_true_iff t).mpr h)]

/-- A non-blank input: the whole run, event by event. -/
theorem run_runBiasAnalysis (ns : Nat → String) (b : Backend) (t : String) (w : World)
    (h : ∃ c ∈ t.data, isWhiteSpace c = false) :
    (runBiasAnalysis ns t).run b w =
      match (b (analyzeRequest ns t)).settle >>= analysisObject t with
      | .ok ar =>
          (⟨{ w.view with isAnalyzing := false, analysisResult := some ar },
            w.trace ++ [.action (.setIsAnalyzing true), .request (analyzeRequest ns t),
              .action (.setAnalysisResult ar), .action (.setIsAnalyzing false)]⟩, .ok ())
      | .error e =>
          (⟨{ w.view with isAnalyzing := false },
            w.trace ++ [.action (.setIsAnalyzing true), .request (analyzeRequest ns t),
              .action (.consoleError "Analysis failed:" e),
              .action (.alert "API Error: Make sure Python API is running on port 5000!"),
              .action (.setIsAnalyzing false)]⟩, .ok ()) := by
  have hg : ¬ ((!(JSValue.string (trim t)).toBoolean) = true) := by
    rw [Bool.not_eq_true, guard_eq_false_iff]; exact h
  unfold runBiasAnalysis
  rw [if_neg hg]
  simp only [Prog.run_bind, Prog.run_tryCatch, run_fullAnalysis, Prog.run_act,
    Prog.run_ofExcept]
  show _ = match (b (analyzeRequest ns t)).settle >>= analysisObject t with
    | .ok ar => _
    | .error e => _
  cases hs : (b (analyzeRequest ns t)).settle with
  | error e =>
    simp only [analyzeRequest] at hs
    simp only [hs, Prog.run_bind, Prog.run_act]
    simp [bind, Except.bind, World.perform, World.issue, Action.apply, analyzeRequest]
  | ok result =>
    simp only [analyzeRequest] at hs
    cases ha : analysisObject t result with
    | error e =>
      simp only [hs, ha, Prog.run_bind, Prog.run_act, Prog.run_ofExcept]
      simp [bind, Except.bind, ha, World.perform, World.issue, Action.apply, analyzeRequest]
    | ok ar =>
      simp only [hs, ha, Prog.run_bind, Prog.run_act, Prog.run_ofExcept]
      simp [bind, Except.bind, ha, World.perform, World.issue, Action.apply, analyzeRequest]

/-- The object literal, once the two optional chains on `result.correction` are known:
with a detection object no property read throws. -/
theorem analysisObject_of_detection (t : String) (props dprops : List (String × JSValue))
    (corrected recommendations : JSValue)
    (hdet : JSValue.lookup "detection" props = .object dprops)
    (hcor : (JSValue.lookup "correction" props).optGetProp "corrected" = .ok corrected)
    (hrec : (JSValue.lookup "correction" props).optGetProp "recommendations" =
      .ok recommendations) :
    analysisObject t (.object props) = .ok {
      input := t,
      biasesDetected := JSValue.lookup "biases_detected" dprops,
      severity := JSValue.lookup "severity" dprops,
      confidence := JSValue.lookup "confidence" dprops,
      originalResponse := t,
      correctedResponse := corrected.or (.string t),
      reasoning := JSValue.lookup "reasoning" dprops,
      recommendations := recommendations.or (.array []) } := by
  simp [analysisObject, JSValue.getProp, hdet, hcor, hrec, bind, Except.bind, pure,
    Except.pure]

/-- A trigger whose request settles with a response that maps to `ar`. -/
theorem trigger_of_mapped (ns : Nat → String) (b : Backend) (w : World) (ar : AnalysisResult)
    (h : ∃ c ∈ w.view.testInput.data, isWhiteSpace c = false)
    (hs : (b (analyzeRequest ns w.view.testInput)).settle >>=
      analysisObject w.view.testInput = .ok ar) :
    trigger ns b w =
      (⟨{ w.view with isAnalyzing := false, analysisResult := some ar },
        w.trace ++ [.action (.setIsAnalyzing true),
          .request (analyzeRequest ns w.view.testInput),
          .action (.setAnalysisResult ar), .action (.setIsAnalyzing false)]⟩, .ok ()) := by
  unfold trigger
  rw [run_runBiasAnalysis ns b _ w h, hs]

/-- A trigger whose request fails, or settles with a response that cannot be mapped. -/
theorem trigger_of_failed (ns : Nat → String) (b : Backend) (w : World) (e : JSError)
    (h : ∃ c ∈ w.view.testInput.data, isWhiteSpace c = false)
    (hs : (b (analyzeRequest ns w.view.testInput)).settle >>=
      analysisObject w.view.testInput = .error e) :
    trigger ns b w =
      (⟨{ w.view with isAnalyzing := false },
        w.trace ++ [.action (.setIsAnalyzing true),
          .request (analyzeRequest ns w.view.testInput),
          .action (.consoleError "Analysis failed:" e),
          .action (.alert "API Error: Make sure Python API is running on port 5000!"),
          .action (.setIsAnalyzing false)]⟩, .ok ()) := by
  unfold trigger
  rw [run_runBiasAnalysis ns b _ w h, hs]

end Frontend

/-- A key that is not among the properties reads as `undefined`. -/
theorem lookup_of_not_mem (key : String) (props : List (String × JSValue))
    (h : key ∉ props.map Prod.fst) : JSValue.lookup key props = .undefined := by
  induction props with
  | nil => rfl
  | cons p rest ih =>
    obtain ⟨k, v⟩ := p
    simp only [List.map_cons, List.mem_cons, not_or] at h
    simp only [JSValue.lookup]
    rw [if_neg (fun hk => h.1 hk.symm)]
    exact ih h.2

/-- With a detection object the object literal is built: no property read throws. -/
theorem Frontend.analysisObject_ok (t : String) (props dprops : List (String × JSValue))
    (hdet : JSValue.lookup "detection" props = .object dprops) :
    ∃ ar, Frontend.analysisObject t (.object props) = .ok ar ∧
      ar.biasesDetected = JSValue.lookup "biases_detected" dprops ∧
      ar.severity = JSValue.lookup "severity" dprops ∧
      ar.confidence = JSValue.lookup "confidence" dprops ∧
      ar.reasoning = JSValue.lookup "reasoning" dprops ∧
      ar.input = t ∧ ar.originalResponse = t := by
  obtain ⟨corrected, hcor⟩ : ∃ v, (JSValue.lookup "correction" props).optGetProp
      "corrected" = .ok v := by
    cases JSValue.lookup "correction" props <;> exact ⟨_, rfl⟩
  obtain ⟨recs, hrec⟩ : ∃ v, (JSValue.lookup "correction" props).optGetProp
      "recommendations" = .ok v := by
    cases JSValue.lookup "correction" props <;> exact ⟨_, rfl⟩
  exact ⟨_, Frontend.analysisObject_of_detection t props dprops corrected recs hdet hcor hrec,
    rfl, rfl, rfl, rfl, rfl, rfl⟩

/-- The run of `BiasAPI.detectBias` of `src/api-client.js`: one request, settled as the
backend decides. -/
theorem run_detectBias_api (ns : Nat → String) (b : Backend) (text : JSValue) (w : World) :
    (ApiClient.BiasAPI.detectBias ns text).run b w =
      (w.issue ⟨"http://localhost:5000/api/detect", "POST", [("Content-Type", "application/json")],
          JSON_stringify ns (.object [("text", text)])⟩,
        (b ⟨"http://localhost:5000/api/detect", "POST", [("Content-Type", "application/json")],
          JSON_stringify ns (.object [("text", text)])⟩).settle) := by
  have hurl : ApiClient.API_BASE ++ "/detect" = "http://localhost:5000/api/detect" := by decide
  unfold ApiClient.BiasAPI.detectBias
  rw [run_fetch_json, hurl]
  rfl

/-- The run of `BiasAPI.correctBias` of `src/api-client.js`: one request, settled as the
backend decides. -/
theorem run_correctBias_api (ns : Nat → String) (b : Backend) (text biases : JSValue) (w : World) :
    (ApiClient.BiasAPI.correctBias ns text biases).run b w =
      (w.issue ⟨"http://localhost:5000/api/correct", "POST", [("Content-Type", "application/json")],
          JSON_stringify ns (.object [("text", text), ("biases", biases)])⟩,
        (b ⟨"http://localhost:5000/api/correct", "POST", [("Content-Type", "application/json")],
          JSON_stringify ns (.object [("text", text), ("biases", biases)])⟩).settle) := by
  have hurl : ApiClient.API_BASE ++ "/correct" = "http://localhost:5000/api/correct" := by decide
  unfold ApiClient.BiasAPI.correctBias
  rw [run_fetch_json, hurl]
  rfl

/-- The run of `BiasAPI.fullAnalysis` of `src/api-client.js`: one request, settled as the
backend decides. -/
theorem run_fullAnalysis_api (ns : Nat → String) (b : Backend) (text : JSValue) (w : World) :
    (ApiClient.BiasAPI.fullAnalysis ns text).run b w =
      (w.issue ⟨"http://localhost:5000/api/analyze", "POST", [("Content-Type", "application/json")],
          JSON_stringify ns (.object [("text", text)])⟩,
        (b ⟨"http://localhost:5000/api/analyze", "POST", [("Content-Type", "application/json")],
          JSON_stringify ns (.object [("text", text)])⟩).settle) := by
  have hurl : ApiClient.API_BASE ++ "/analyze" = "http://localhost:5000/api/analyze" := by decide
  unfold ApiClient.BiasAPI.fullAnalysis
  rw [run_fetch_json, hurl]
  rfl

/-- The run of `BiasAPI.getStats` of `src/api-client.js`: one request, settled as the
backend decides. -/
theorem run_getStats_api (b : Backend) (w : World) :
    (ApiClient.BiasAPI.getStats).run b w =
      (w.issue ⟨"http://localhost:5000/api/stats", "GET", [],
          none⟩,
        (b ⟨"http://localhost:5000/api/stats", "GET", [],
          none⟩).settle) := by
  have hurl : ApiClient.API_BASE ++ "/stats" = "http://localhost:5000/api/stats" := by decide
  unfold ApiClient.BiasAPI.getStats
  rw [run_fetch_json, hurl]
  rfl

/-- The run of `BiasAPI.generateTrainingData` of `src/api-client.js`: one request, settled as the
backend decides. -/
theorem run_generateTrainingData_api (ns : Nat → String) (b : Backend) (numExamples : JSValue) (w : World) :
    (ApiClient.BiasAPI.generateTrainingData ns numExamples).run b w =
      (w.issue ⟨"http://localhost:5000/api/training/generate", "POST", [("Content-Type", "application/json")],
          JSON_stringify ns (.object [("num_examples", numExamples)])⟩,
        (b ⟨"http://localhost:5000/api/training/generate", "POST", [("Content-Type", "application/json")],
          JSON_stringify ns (.object [("num_examples", numExamples)])⟩).settle) := by
  have hurl : ApiClient.API_BASE ++ "/training/generate" = "http://localhost:5000/api/training/generate" := by decide
  unfold ApiClient.BiasAPI.generateTrainingData
  rw [run_fetch_json, hurl]
  rfl

/-- The run of `BiasAPI.detectBias` of the frontend client: one request, settled as the
backend decides. -/
theorem run_detectBias_app (ns : Nat → String) (b : Backend) (text : JSValue) (w : World) :
    (Frontend.BiasAPI.detectBias ns text).run b w =
      (w.issue ⟨"http://localhost:5000/api/detect", "POST", [("Content-Type", "application/json")],
          JSON_stringify ns (.object [("text", text)])⟩,
        (b ⟨"http://localhost:5000/api/detect", "POST", [("Content-Type", "application/json")],
          JSON_stringify ns (.object [("text", text)])⟩).settle) := by
  have hurl : Frontend.API_BASE ++ "/detect" = "http://localhost:5000/api/detect" := by decide
  unfold Frontend.BiasAPI.detectBias
  rw [run_fetch_json, hurl]
  rfl

/-- The run of `BiasAPI.getStats` of the frontend client: one request, settled as the
backend decides. -/
theorem run_getStats_app (b : Backend) (w : World) :
    (Frontend.BiasAPI.getStats).run b w =
      (w.issue ⟨"http://localhost:5000/api/stats", "GET", [],
          none⟩,
        (b ⟨"http://localhost:5000/api/stats", "GET", [],
          none⟩).settle) := by
  have hurl : Frontend.API_BASE ++ "/stats" = "http://localhost:5000/api/stats" := by decide
  unfold Frontend.BiasAPI.getStats
  rw [run_fetch_json, hurl]
  rfl

/-- Issuing a request adds it, and nothing else, to the requests of the trace. -/
theorem requestsOf_issue (w : World) (req : Request) :
    requestsOf (w.issue req).trace = requestsOf w.trace ++ [req] := by
  simp [World.issue, requestsOf, List.filterMap_append]

/-- Every operation of `src/api-client.js` issues one request and settles as the backend
decides for that request. -/
theorem run_call_api (ns : Nat → String) (b : Backend) (w : World) (c : Call) :
    ∃ req, (c.prog ns).run b w = (w.issue req, (b req).settle) := by
  cases c with
  | detectBias text => exact ⟨_, run_detectBias_api ns b text w⟩
  | correctBias text biases => exact ⟨_, run_correctBias_api ns b text biases w⟩
  | fullAnalysis text => exact ⟨_, run_fullAnalysis_api ns b text w⟩
  | getStats => exact ⟨_, run_getStats_api b w⟩
  | generateTrainingData n => exact ⟨_, run_generateTrainingData_api ns b n w⟩

/-- Every operation of the frontend client issues one request and settles as the backend
decides for that request. -/
theorem run_call_app (ns : Nat → String) (b : Backend) (w : World) (c : Call)
    (p : Prog JSValue) (hp : c.frontendProg ns = some p) :
    ∃ req, p.run b w = (w.issue req, (b req).settle) := by
  cases c with
  | detectBias text =>
    simp only [Call.frontendProg, Option.some.injEq] at hp
    subst hp
    exact ⟨_, run_detectBias_app ns b text w⟩
  | correctBias text biases => simp [Call.frontendProg] at hp
  | fullAnalysis text =>
    simp only [Call.frontendProg, Option.some.injEq] at hp
    subst hp
    exact ⟨_, Frontend.run_fullAnalysis ns b text w⟩
  | getStats =>
    simp only [Call.frontendProg, Option.some.injEq] at hp
    subst hp
    exact ⟨_, run_getStats_app b w⟩
  | generateTrainingData n => simp [Call.frontendProg] at hp

namespace ApiClient

/-- A blank input in the copy of `src/api-client.js`: the guard returns at once. -/
theorem runBiasAnalysis_blank_api (ns : Nat → String) (t : String)
    (h : ∀ c ∈ t.data, isWhiteSpace c = true) :
    runBiasAnalysis ns t = pure () := by
  unfold runBiasAnalysis
  rw [if_pos ((guard_eq_true_iff t).mpr h)]

/-- A non-blank input in the copy of `src/api-client.js`: the whole run, event by event. -/
theorem run_runBiasAnalysis_api (ns : Nat → String) (b : Backend) (t : String) (w : World)
    (h : ∃ c ∈ t.data, isWhiteSpace c = false) :
    (runBiasAnalysis ns t).run b w =
      match (b (analyzeRequest ns t)).settle >>= analysisObject t with
      | .ok ar =>
          (⟨{ w.view with isAnalyzing := false, analysisResult := some ar },
            w.trace ++ [.action (.setIsAnalyzing true), .request (analyzeRequest ns t),
              .action (.setAnalysisResult ar), .action (.setIsAnalyzing false)]⟩, .ok ())
      | .error e =>
          (⟨{ w.view with isAnalyzing := false },
            w.trace ++ [.action (.setIsAnalyzing true), .request (analyzeRequest ns t),
              .action (.consoleError "Analysis failed:" e),
              .action (.alert "Failed to analyze. Make sure the API is running!"),
              .action (.setIsAnalyzing false)]⟩, .ok ()) := by
  have hg : ¬ ((!(JSValue.string (trim t)).toBoolean) = true) := by
    rw [Bool.not_eq_true, guard_eq_false_iff]; exact h
  unfold runBiasAnalysis
  rw [if_neg hg]
  simp only [Prog.run_bind, Prog.run_tryCatch, run_fullAnalysis_api, Prog.run_act,
    Prog.run_ofExcept]
  show _ = match (b (analyzeRequest ns t)).settle >>= analysisObject t with
    | .ok ar => _
    | .error e => _
  cases hs : (b (analyzeRequest ns t)).settle with
  | error e =>
    simp only [analyzeRequest] at hs
    simp only [hs, Prog.run_bind, Prog.run_act]
    simp [bind, Except.bind, World.perform, World.issue, Action.apply, analyzeRequest]
  | ok result =>
    simp only [analyzeRequest] at hs
    cases ha : analysisObject t result with
    | error e =>
      simp only [hs, ha, Prog.run_bind, Prog.run_act, Prog.run_ofExcept]
      simp [bind, Except.bind, ha, World.perform, World.issue, Action.apply, analyzeRequest]
    | ok ar =>
      simp only [hs, ha, Prog.run_bind, Prog.run_act, Prog.run_ofExcept]
      simp [bind, Except.bind, ha, World.perform, World.issue, Action.apply, analyzeRequest]

end ApiClient

/-! ## Suspension lemmas -/

theorem Prog.advance_bind {α β : Type} (p : Prog α) (f : α → Prog β) (w : World) :
    (p >>= f).advance w =
      match p.advance w with
      | (w1, .done (.ok a)) => (f a).advance w1
      | (w1, .done (.error e)) => (w1, .done (.error e))
      | (w1, .waiting req k) => (w1, .waiting req (fun o => k o >>= f)) := by
  show (Prog.bind p f).advance w = _
  induction p generalizing w with
  | ret a => simp [Prog.bind, Prog.advance]
  | raise e => simp [Prog.bind, Prog.advance]
  | request req k _ => simp only [Prog.bind, Prog.advance]; rfl
  | act a k ih => simp only [Prog.bind, Prog.advance]; exact ih _

theorem Prog.advance_tryCatch {α : Type} (p : Prog α) (h : JSError → Prog α) (w : World) :
    (MonadExcept.tryCatch p h).advance w =
      match p.advance w with
      | (w1, .done (.ok a)) => (w1, .done (.ok a))
      | (w1, .done (.error e)) => (h e).advance w1
      | (w1, .waiting req k) => (w1, .waiting req (fun o => MonadExcept.tryCatch (k o) h)) := by
  show (Prog.tryCatch p h).advance w = _
  induction p generalizing w with
  | ret a => simp [Prog.tryCatch, Prog.advance]
  | raise e => simp [Prog.tryCatch, Prog.advance]
  | request req k _ => simp only [Prog.tryCatch, Prog.advance]; rfl
  | act a k ih => simp only [Prog.tryCatch, Prog.advance]; exact ih _

theorem Prog.advance_act (a : Action) (w : World) :
    (Prog.act a (.ret ())).advance w = (w.perform a, .done (.ok ())) := rfl

theorem Prog.advance_ofExcept {α : Type} (r : Except JSError α) (w : World) :
    (Prog.ofExcept r).advance w = (w, .done r) := by
  cases r <;> rfl

/-- Running to completion is advancing to the first request and running the rest with the
outcome the backend decides. -/
theorem Prog.run_eq_advance {α : Type} (b : Backend) (p : Prog α) (w : World) :
    p.run b w =
      match p.advance w with
      | (w1, .done r) => (w1, r)
      | (w1, .waiting req k) => (k (b req)).run b w1 := by
  induction p generalizing w with
  | ret a => rfl
  | raise e => rfl
  | request req k _ => rfl
  | act a k ih => simp only [Prog.run, Prog.advance]; exact ih _

/-- Awaiting `fetch` and then `response.json()` suspends at the request; once the request
has settled, the rest settles without waiting again. -/
theorem advance_fetch_json (url : String) (init : Option RequestInit) (w : World) :
    ∃ k, (fetch url init >>= fun response => response.json).advance w =
        (w.issue (Request.ofFetchArgs url init), .waiting (Request.ofFetchArgs url init) k) ∧
      ∀ o w1, (k o).advance w1 = (w1, .done o.settle) := by
  refine ⟨_, by rw [Prog.advance_bind]; rfl, ?_⟩
  intro o w1
  cases o with
  | rejected e => rfl
  | resolved r =>
    show ((Prog.ret r : Prog Response) >>= fun response => response.json).advance w1 = _
    rw [Prog.advance_bind]
    exact Prog.advance_ofExcept _ _

namespace Frontend

/-- A non-blank input, step by step: the handler sets the busy flag, issues the request
and is suspended; whenever the request settles, and whatever the world is by then, the
rest of the handler runs to its end without waiting again. -/
theorem advance_runBiasAnalysis (ns : Nat → String) (t : String) (w : World)
    (h : ∃ c ∈ t.data, isWhiteSpace c = false) :
    ∃ k, (runBiasAnalysis ns t).advance w =
        (⟨{ w.view with isAnalyzing := true },
          w.trace ++ [.action (.setIsAnalyzing true), .request (analyzeRequest ns t)]⟩,
          .waiting (analyzeRequest ns t) k) ∧
      ∀ o w1, (k o).advance w1 =
        match o.settle >>= analysisObject t with
        | .ok ar =>
            (⟨{ w1.view with isAnalyzing := false, analysisResult := some ar },
              w1.trace ++ [.action (.setAnalysisResult ar),
                .action (.setIsAnalyzing false)]⟩, .done (.ok ()))
        | .error e =>
            (⟨{ w1.view with isAnalyzing := false },
              w1.trace ++ [.action (.consoleError "Analysis failed:" e),
                .action (.alert "API Error: Make sure Python API is running on port 5000!"),
                .action (.setIsAnalyzing false)]⟩, .done (.ok ())) := by
  have hg : ¬ ((!(JSValue.string (trim t)).toBoolean) = true) := by
    rw [Bool.not_eq_true, guard_eq_false_iff]; exact h
  have hurl : API_BASE ++ "/analyze" = "http://localhost:5000/api/analyze" := by decide
  obtain ⟨k1, hk1, hk1s⟩ := advance_fetch_json (API_BASE ++ "/analyze") (some {
    method := some "POST",
    headers := [("Content-Type", "application/json")],
    body := JSON_stringify ns (.object [("text", .string t)]) })
    (w.perform (.setIsAnalyzing true))
  unfold runBiasAnalysis
  rw [if_neg hg]
  simp only [Prog.advance_bind, Prog.advance_tryCatch, Prog.advance_act, BiasAPI.fullAnalysis,
    hk1]
  have hreq : Request.ofFetchArgs (API_BASE ++ "/analyze") (some {
      method := some "POST",
      headers := [("Content-Type", "application/json")],
      body := JSON_stringify ns (.object [("text", .string t)]) }) = analyzeRequest ns t := by
    rw [hurl]; rfl
  have hw : (w.perform (.setIsAnalyzing true)).issue (analyzeRequest ns t) =
      ⟨{ w.view with isAnalyzing := true },
        w.trace ++ [.action (.setIsAnalyzing true), .request (analyzeRequest ns t)]⟩ := by
    simp [World.perform, World.issue, Action.apply]
  rw [hreq, hw]
  refine ⟨_, rfl, ?_⟩
  · intro o w1
    simp only [Prog.advance_bind, Prog.advance_tryCatch, hk1s]
    cases hs : o.settle with
    | error e =>
      simp [Prog.advance_act, bind, Except.bind, World.perform, Action.apply]
    | ok result =>
      cases ha : analysisObject t result with
      | error e =>
        simp [Prog.advance_act, Prog.advance_ofExcept, ha, bind, Except.bind, World.perform,
          Action.apply]
      | ok ar =>
        simp [Prog.advance_act, Prog.advance_ofExcept, ha, bind, Except.bind, World.perform,
          Action.apply]

end Frontend

/-- The two copies of the object literal are the same expression. -/
theorem analysisObject_api_eq : ApiClient.analysisObject = Frontend.analysisObject := rfl

/-- The object literal throws when the response is `null`. -/
theorem analysisObject_null (t : String) :
    Frontend.analysisObject t .null =
      .error (JSValue.propertyReadError "null" "detection") := rfl

/-- The object literal throws when the response object has no `detection` property. -/
theorem analysisObject_no_detection (t : String) (props : List (String × JSValue))
    (h : "detection" ∉ props.map Prod.fst) :
    Frontend.analysisObject t (.object props) =
      .error (JSValue.propertyReadError "undefined" "biases_detected") := by
  simp [Frontend.analysisObject, JSValue.getProp, lookup_of_not_mem "detection" props h, bind,
    Except.bind]

/-- The object literal throws for every response whose `detection` cannot be read or is
`undefined` or `null`: a response that is not an object, or an object whose `detection`
is missing, `undefined` or `null`. -/
theorem analysisObject_without_detection (t : String) (result : JSValue)
    (h : ∀ props, result = .object props →
      JSValue.lookup "detection" props = .undefined ∨
        JSValue.lookup "detection" props = .null) :
    ∃ e, Frontend.analysisObject t result = .error e := by
  cases result with
  | undefined => exact ⟨_, rfl⟩
  | null => exact ⟨_, rfl⟩
  | bool x => exact ⟨_, rfl⟩
  | number x => exact ⟨_, rfl⟩
  | string x => exact ⟨_, rfl⟩
  | array x => exact ⟨_, rfl⟩
  | object props =>
    rcases h props rfl with hd | hd
    · exact ⟨JSValue.propertyReadError "undefined" "biases_detected", by
        simp [Frontend.analysisObject, JSValue.getProp, hd, bind, Except.bind]⟩
    · exact ⟨JSValue.propertyReadError "null" "biases_detected", by
        simp [Frontend.analysisObject, JSValue.getProp, hd, bind, Except.bind]⟩

/-- The detection itself is not validated: with a `detection` that is a number, a string,
a boolean or an array, no property read throws and the object literal is built. -/
theorem analysisObject_unvalidated_detection (t : String) (props : List (String × JSValue))
    (hu : JSValue.lookup "detection" props ≠ .undefined)
    (hn : JSValue.lookup "detection" props ≠ .null) :
    ∃ ar, Frontend.analysisObject t (.object props) = .ok ar := by
  obtain ⟨corrected, hcor⟩ : ∃ v, (JSValue.lookup "correction" props).optGetProp
      "corrected" = .ok v := by
    cases JSValue.lookup "correction" props <;> exact ⟨_, rfl⟩
  obtain ⟨recs, hrec⟩ : ∃ v, (JSValue.lookup "correction" props).optGetProp
      "recommendations" = .ok v := by
    cases JSValue.lookup "correction" props <;> exact ⟨_, rfl⟩
  cases hd : JSValue.lookup "detection" props with
  | undefined => exact absurd hd hu
  | null => exact absurd hd hn
  | bool x =>
    exact ⟨⟨t, .undefined, .undefined, .undefined, t, corrected.or (.string t), .undefined,
      recs.or (.array [])⟩, by
        simp [Frontend.analysisObject, JSValue.getProp, hd, hcor, hrec, bind, Except.bind,
          pure, Except.pure]⟩
  | number x =>
    exact ⟨⟨t, .undefined, .undefined, .undefined, t, corrected.or (.string t), .undefined,
      recs.or (.array [])⟩, by
        simp [Frontend.analysisObject, JSValue.getProp, hd, hcor, hrec, bind, Except.bind,
          pure, Except.pure]⟩
  | string x =>
    exact ⟨⟨t, .undefined, .undefined, .undefined, t, corrected.or (.string t), .undefined,
      recs.or (.array [])⟩, by
        simp [Frontend.analysisObject, JSValue.getProp, hd, hcor, hrec, bind, Except.bind,
          pure, Except.pure]⟩
  | array x =>
    exact ⟨⟨t, .undefined, .undefined, .undefined, t, corrected.or (.string t), .undefined,
      recs.or (.array [])⟩, by
        simp [Frontend.analysisObject, JSValue.getProp, hd, hcor, hrec, bind, Except.bind,
          pure, Except.pure]⟩
  | object x =>
    obtain ⟨ar, har, -⟩ := Frontend.analysisObject_ok t props x hd
    exact ⟨ar, har⟩

/-- A run of the copy of `src/api-client.js` whose request settles with a response that
maps to `ar`. -/
theorem run_api_of_mapped (ns : Nat → String) (b : Backend) (w : World) (ar : AnalysisResult)
    (h : ∃ c ∈ w.view.testInput.data, isWhiteSpace c = false)
    (hs : (b (analyzeRequest ns w.view.testInput)).settle >>=
      Frontend.analysisObject w.view.testInput = .ok ar) :
    (ApiClient.runBiasAnalysis ns w.view.testInput).run b w =
      (⟨{ w.view with isAnalyzing := false, analysisResult := some ar },
        w.trace ++ [.action (.setIsAnalyzing true),
          .request (analyzeRequest ns w.view.testInput),
          .action (.setAnalysisResult ar), .action (.setIsAnalyzing false)]⟩, .ok ()) := by
  rw [ApiClient.run_runBiasAnalysis_api ns b _ w h, analysisObject_api_eq, hs]

/-! ## The trigger of `runBiasAnalysis` -/

/-- C1, counterexample: the input `" "` is not empty, and one trigger with it issues no
request at all. -/
theorem C1_counterexample :
    (Sample.typed " ").view.testInput ≠ "" ∧
      requestsOf (Frontend.trigger Sample.numberToString (Sample.respond Sample.fullResponse)
        (Sample.typed " ")).1.trace = [] := by
  decide

/-- C1, amended: for every input text with a character that is not white space, one
trigger of `runBiasAnalysis` issues exactly one request, a POST to
`http://localhost:5000/api/analyze` with the header `Content-Type: application/json`,
whose body is `JSON.stringify` of the object with the single property `text` holding the
input text, that is, the text quoted as a JSON string after `\x7b"text":`. -/
theorem C1_trigger_issues_one_analyze_post (ns : Nat → String) (b : Backend) (w : World)
    (h : ∃ c ∈ w.view.testInput.data, isWhiteSpace c = false) :
    requestsOf (Frontend.trigger ns b w).1.trace =
        requestsOf w.trace ++
          [⟨"http://localhost:5000/api/analyze", "POST",
            [("Content-Type", "application/json")],
            JSON_stringify ns (.object [("text", .string w.view.testInput)])⟩] ∧
      JSON_stringify ns (.object [("text", .string w.view.testInput)]) =
        some ("\x7b\"text\":" ++ quoteJSONString w.view.testInput ++ "\x7d") := by
  constructor
  · unfold Frontend.trigger
    rw [Frontend.run_runBiasAnalysis ns b _ w h]
    cases (b (analyzeRequest ns w.view.testInput)).settle >>=
        Frontend.analysisObject w.view.testInput <;>
      simp [requestsOf, List.filterMap_append, analyzeRequest]
  · exact stringify_text_string ns _

/-- C1, witness: with `"hi"` in the text area the hypothesis holds and the one request
is the POST to `/api/analyze`. -/
theorem C1_witness :
    (∃ c ∈ (Sample.typed "hi").view.testInput.data, isWhiteSpace c = false) ∧
      (requestsOf (Frontend.trigger Sample.numberToString Sample.down
          (Sample.typed "hi")).1.trace =
        requestsOf (Sample.typed "hi").trace ++
          [⟨"http://localhost:5000/api/analyze", "POST",
            [("Content-Type", "application/json")],
            JSON_stringify Sample.numberToString
              (.object [("text", .string (Sample.typed "hi").view.testInput)])⟩] ∧
        JSON_stringify Sample.numberToString
            (.object [("text", .string (Sample.typed "hi").view.testInput)]) =
          some ("\x7b\"text\":" ++ quoteJSONString (Sample.typed "hi").view.testInput ++
            "\x7d")) :=
  ⟨by decide,
    C1_trigger_issues_one_analyze_post Sample.numberToString Sample.down (Sample.typed "hi")
      (by decide)⟩

/-- C2: for every input text that is empty or made of white space only, a trigger of
`runBiasAnalysis` is a no-op: the world after it is the world before it, so no request
is issued, no alert is raised, and `isAnalyzing` and `analysisResult` keep their values;
the promise of the handler resolves. -/
theorem C2_blank_input_is_noop (ns : Nat → String) (b : Backend) (w : World)
    (h : ∀ c ∈ w.view.testInput.data, isWhiteSpace c = true) :
    Frontend.trigger ns b w = (w, .ok ()) ∧
      requestsOf (Frontend.trigger ns b w).1.trace = requestsOf w.trace ∧
      alertsOf (Frontend.trigger ns b w).1.trace = alertsOf w.trace ∧
      (Frontend.trigger ns b w).1.view.isAnalyzing = w.view.isAnalyzing ∧
      (Frontend.trigger ns b w).1.view.analysisResult = w.view.analysisResult := by
  have hrun : Frontend.trigger ns b w = (w, .ok ()) := by
    unfold Frontend.trigger
    rw [Frontend.runBiasAnalysis_blank ns _ h]
    rfl
  rw [hrun]
  exact ⟨rfl, rfl, rfl, rfl, rfl⟩

/-- C2, witness: a text area holding a blank, a tab and a line feed. -/
theorem C2_witness :
    (∀ c ∈ (Sample.typed " \t\n").view.testInput.data, isWhiteSpace c = true) ∧
      (Frontend.trigger Sample.numberToString Sample.down (Sample.typed " \t\n") =
          (Sample.typed " \t\n", .ok ()) ∧
        requestsOf (Frontend.trigger Sample.numberToString Sample.down
          (Sample.typed " \t\n")).1.trace = requestsOf (Sample.typed " \t\n").trace ∧
        alertsOf (Frontend.trigger Sample.numberToString Sample.down
          (Sample.typed " \t\n")).1.trace = alertsOf (Sample.typed " \t\n").trace ∧
        (Frontend.trigger Sample.numberToString Sample.down
          (Sample.typed " \t\n")).1.view.isAnalyzing =
            (Sample.typed " \t\n").view.isAnalyzing ∧
        (Frontend.trigger Sample.numberToString Sample.down
          (Sample.typed " \t\n")).1.view.analysisResult =
            (Sample.typed " \t\n").view.analysisResult) :=
  ⟨by decide,
    C2_blank_input_is_noop Sample.numberToString Sample.down (Sample.typed " \t\n")
      (by decide)⟩

/-- C3, counterexample: the response carries a correction sub-object whose `corrected`
is the empty string; the Analysis Result is set, and its `correctedResponse` is the
input text `"abc"`, not `response.correction.corrected`. -/
theorem C3_counterexample :
    ((Sample.emptyCorrected.getProp "correction").bind fun c => c.getProp "corrected") =
        .ok (.string "") ∧
      ((Frontend.trigger Sample.numberToString (Sample.respond Sample.emptyCorrected)
        (Sample.typed "abc")).1.view.analysisResult.map fun r => r.correctedResponse) =
        some (.string "abc") := by
  decide

/-- C3, amended: for every input that passes the guard and every response with a
detection object and a correction sub-object, the Analysis Result set by
`runBiasAnalysis` has `correctedResponse` equal to `correction.corrected` when that value
is truthy, and `recommendations` equal to `correction.recommendations` when that value is
truthy; every array is truthy, so a `recommendations` array is always taken over. -/
theorem C3_correction_is_mapped (ns : Nat → String) (b : Backend) (w : World) (status : Nat)
    (props dprops cprops : List (String × JSValue))
    (hin : ∃ c ∈ w.view.testInput.data, isWhiteSpace c = false)
    (hresp : b (analyzeRequest ns w.view.testInput) =
      .resolved ⟨status, .ok (.object props)⟩)
    (hdet : JSValue.lookup "detection" props = .object dprops)
    (hcor : JSValue.lookup "correction" props = .object cprops) :
    ∃ ar, (Frontend.trigger ns b w).1.view.analysisResult = some ar ∧
      resultsSetOf (Frontend.trigger ns b w).1.trace = resultsSetOf w.trace ++ [ar] ∧
      ((JSValue.lookup "corrected" cprops).toBoolean = true →
        ar.correctedResponse = JSValue.lookup "corrected" cprops) ∧
      ((JSValue.lookup "recommendations" cprops).toBoolean = true →
        ar.recommendations = JSValue.lookup "recommendations" cprops) ∧
      (∀ items, JSValue.lookup "recommendations" cprops = .array items →
        ar.recommendations = .array items) := by
  have hobj := Frontend.analysisObject_of_detection w.view.testInput props dprops
    (JSValue.lookup "corrected" cprops) (JSValue.lookup "recommendations" cprops) hdet
    (by rw [hcor]; rfl) (by rw [hcor]; rfl)
  rw [Frontend.trigger_of_mapped ns b w _ hin (by rw [hresp]; exact hobj)]
  refine ⟨_, rfl, ?_, ?_, ?_, ?_⟩
  · simp [resultsSetOf, List.filterMap_append]
  · intro ht
    simp [JSValue.or, ht]
  · intro ht
    simp [JSValue.or, ht]
  · intro items hi
    simp [JSValue.or, hi, JSValue.toBoolean]

/-- C3, witness: the response of the specification's example gives `correctedResponse`
`"fixed"` and `recommendations` `["rec1"]`. -/
theorem C3_witness :
    (Frontend.trigger Sample.numberToString (Sample.respond Sample.fullResponse)
        (Sample.typed "hi")).1.view.analysisResult.map
          (fun r => (r.correctedResponse, r.recommendations)) =
      some (.string "fixed", .array [.string "rec1"]) := by
  obtain ⟨ar, hset, _, hc, _, hr⟩ :=
    C3_correction_is_mapped Sample.numberToString (Sample.respond Sample.fullResponse)
      (Sample.typed "hi") 200 Sample.fullProps Sample.detectionProps Sample.correctionProps
      (by decide) rfl (by decide) (by decide)
  rw [hset, Option.map, hc (by decide), hr [.string "rec1"] (by decide)]
  decide

/-- C4: for every input that passes the guard and every response that has a detection
object and no `correction` field, the Analysis Result set by `runBiasAnalysis` has
`correctedResponse` equal to the input text and `recommendations` equal to the empty
list. -/
theorem C4_no_correction_defaults (ns : Nat → String) (b : Backend) (w : World)
    (status : Nat) (props dprops : List (String × JSValue))
    (hin : ∃ c ∈ w.view.testInput.data, isWhiteSpace c = false)
    (hresp : b (analyzeRequest ns w.view.testInput) =
      .resolved ⟨status, .ok (.object props)⟩)
    (hdet : JSValue.lookup "detection" props = .object dprops)
    (hcor : "correction" ∉ props.map Prod.fst) :
    ∃ ar, (Frontend.trigger ns b w).1.view.analysisResult = some ar ∧
      resultsSetOf (Frontend.trigger ns b w).1.trace = resultsSetOf w.trace ++ [ar] ∧
      ar.correctedResponse = .string w.view.testInput ∧
      ar.recommendations = .array [] := by
  have hun := lookup_of_not_mem "correction" props hcor
  have hobj := Frontend.analysisObject_of_detection w.view.testInput props dprops
    .undefined .undefined hdet (by rw [hun]; rfl) (by rw [hun]; rfl)
  rw [Frontend.trigger_of_mapped ns b w _ hin (by rw [hresp]; exact hobj)]
  refine ⟨_, rfl, ?_, rfl, rfl⟩
  simp [resultsSetOf, List.filterMap_append]

/-- C4, witness: the detection-only response with `"hi"` in the text area. -/
theorem C4_witness :
    (Frontend.trigger Sample.numberToString (Sample.respond Sample.detectionOnly)
        (Sample.typed "hi")).1.view.analysisResult.map
          (fun r => (r.correctedResponse, r.recommendations)) =
      some (.string "hi", .array []) := by
  obtain ⟨ar, hset, _, hc, hr⟩ :=
    C4_no_correction_defaults Sample.numberToString (Sample.respond Sample.detectionOnly)
      (Sample.typed "hi") 200 Sample.detectionOnlyProps Sample.detectionProps
      (by decide) rfl (by decide) (by decide)
  rw [hset, Option.map, hc, hr]
  rfl

/-- C5: for every input that passes the guard and every response with a detection
object, the Analysis Result set by `runBiasAnalysis` has `biasesDetected`, `severity`,
`confidence` and `reasoning` equal to the properties `biases_detected`, `severity`,
`confidence` and `reasoning` of the detection, and `input` and `originalResponse` equal
to the input text; the result is the object literal built from the input text and the
response alone, and it is what `analysisResult` holds afterwards whatever it held
before. -/
theorem C5_detection_is_mapped (ns : Nat → String) (b : Backend) (w : World) (status : Nat)
    (props dprops : List (String × JSValue))
    (hin : ∃ c ∈ w.view.testInput.data, isWhiteSpace c = false)
    (hresp : b (analyzeRequest ns w.view.testInput) =
      .resolved ⟨status, .ok (.object props)⟩)
    (hdet : JSValue.lookup "detection" props = .object dprops) :
    ∃ ar, Frontend.analysisObject w.view.testInput (.object props) = .ok ar ∧
      (Frontend.trigger ns b w).1.view.analysisResult = some ar ∧
      resultsSetOf (Frontend.trigger ns b w).1.trace = resultsSetOf w.trace ++ [ar] ∧
      ar.biasesDetected = JSValue.lookup "biases_detected" dprops ∧
      ar.severity = JSValue.lookup "severity" dprops ∧
      ar.confidence = JSValue.lookup "confidence" dprops ∧
      ar.reasoning = JSValue.lookup "reasoning" dprops ∧
      ar.input = w.view.testInput ∧
      ar.originalResponse = w.view.testInput := by
  obtain ⟨ar, hobj, h1, h2, h3, h4, h5, h6⟩ :=
    Frontend.analysisObject_ok w.view.testInput props dprops hdet
  rw [Frontend.trigger_of_mapped ns b w ar hin (by rw [hresp]; exact hobj)]
  refine ⟨ar, hobj, rfl, ?_, h1, h2, h3, h4, h5, h6⟩
  simp [resultsSetOf, List.filterMap_append]

/-- C5, witness: the response of the specification's example replaces a result that was
displayed before. -/
theorem C5_witness :
    (Frontend.trigger Sample.numberToString (Sample.respond Sample.fullResponse)
        (Frontend.trigger Sample.numberToString (Sample.respond Sample.detectionOnly)
          (Sample.typed "hi")).1).1.view.analysisResult =
      some ⟨"hi", .array [.string "confirmation"], .string "high",
        .number 0x4054000000000000, "hi", .string "fixed", .array [.string "r1"],
        .array [.string "rec1"]⟩ := by
  obtain ⟨ar, hobj, hset, _⟩ :=
    C5_detection_is_mapped Sample.numberToString (Sample.respond Sample.fullResponse)
      (Frontend.trigger Sample.numberToString (Sample.respond Sample.detectionOnly)
        (Sample.typed "hi")).1 200 Sample.fullProps Sample.detectionProps
      (by decide) rfl (by decide)
  rw [hset]
  have hev : Frontend.analysisObject "hi" (.object Sample.fullProps) =
      .ok ⟨"hi", .array [.string "confirmation"], .string "high",
        .number 0x4054000000000000, "hi", .string "fixed", .array [.string "r1"],
        .array [.string "rec1"]⟩ := by decide
  have hin : (Frontend.trigger Sample.numberToString (Sample.respond Sample.detectionOnly)
      (Sample.typed "hi")).1.view.testInput = "hi" := by decide
  rw [hin, hev] at hobj
  exact congrArg some (Except.ok.inj hobj).symm

/-- C6: for every input that passes the guard, if the analysis request is rejected, then
after the trigger `isAnalyzing` is false, `setAnalysisResult` was not called, and
`analysisResult` holds what it held before the trigger (`null` when the trigger started
from the initial state). -/
theorem C6_rejection_sets_no_result (ns : Nat → String) (b : Backend) (w : World)
    (e : JSError)
    (hin : ∃ c ∈ w.view.testInput.data, isWhiteSpace c = false)
    (hrej : b (analyzeRequest ns w.view.testInput) = .rejected e) :
    (Frontend.trigger ns b w).1.view.isAnalyzing = false ∧
      resultsSetOf (Frontend.trigger ns b w).1.trace = resultsSetOf w.trace ∧
      (Frontend.trigger ns b w).1.view.analysisResult = w.view.analysisResult ∧
      (w.view.analysisResult = ViewState.initial.analysisResult →
        (Frontend.trigger ns b w).1.view.analysisResult = none) := by
  rw [Frontend.trigger_of_failed ns b w e hin (by rw [hrej]; rfl)]
  refine ⟨rfl, ?_, rfl, fun h0 => h0⟩
  simp [resultsSetOf, List.filterMap_append]

/-- C6, witness: the backend is down and `"hi"` is in the text area of a fresh view. -/
theorem C6_witness :
    (Frontend.trigger Sample.numberToString Sample.down (Sample.typed "hi")).1.view.isAnalyzing
        = false ∧
      resultsSetOf (Frontend.trigger Sample.numberToString Sample.down
        (Sample.typed "hi")).1.trace = [] ∧
      (Frontend.trigger Sample.numberToString Sample.down
        (Sample.typed "hi")).1.view.analysisResult = none :=
  have h := C6_rejection_sets_no_result Sample.numberToString Sample.down (Sample.typed "hi")
    ⟨"TypeError", "Failed to fetch"⟩ (by decide) rfl
  ⟨h.1, h.2.1, h.2.2.2 rfl⟩

/-- C7: for every input that passes the guard, the promise of `runBiasAnalysis` resolves
whatever the backend does (no error leaves the handler); a rejected `fetch` and a
rejected `response.json()` each raise exactly one alert, with the same message; and a
response with a detection object, from which the Analysis Result is set, raises no
alert. -/
theorem C7_failure_becomes_one_alert (ns : Nat → String) (b : Backend) (w : World)
    (hin : ∃ c ∈ w.view.testInput.data, isWhiteSpace c = false) :
    (Frontend.trigger ns b w).2 = .ok () ∧
      (∀ e, b (analyzeRequest ns w.view.testInput) = .rejected e →
        alertsOf (Frontend.trigger ns b w).1.trace = alertsOf w.trace ++
          ["API Error: Make sure Python API is running on port 5000!"]) ∧
      (∀ status e, b (analyzeRequest ns w.view.testInput) = .resolved ⟨status, .error e⟩ →
        alertsOf (Frontend.trigger ns b w).1.trace = alertsOf w.trace ++
          ["API Error: Make sure Python API is running on port 5000!"]) ∧
      (∀ status props dprops,
        b (analyzeRequest ns w.view.testInput) = .resolved ⟨status, .ok (.object props)⟩ →
        JSValue.lookup "detection" props = .object dprops →
        alertsOf (Frontend.trigger ns b w).1.trace = alertsOf w.trace) := by
  refine ⟨?_, ?_, ?_, ?_⟩
  · unfold Frontend.trigger
    rw [Frontend.run_runBiasAnalysis ns b _ w hin]
    cases (b (analyzeRequest ns w.view.testInput)).settle >>=
      Frontend.analysisObject w.view.testInput <;> rfl
  · intro e hrej
    rw [Frontend.trigger_of_failed ns b w e hin (by rw [hrej]; rfl)]
    simp [alertsOf, List.filterMap_append]
  · intro status e hres
    rw [Frontend.trigger_of_failed ns b w e hin (by rw [hres]; rfl)]
    simp [alertsOf, List.filterMap_append]
  · intro status props dprops hres hdet
    obtain ⟨ar, hobj, -⟩ := Frontend.analysisObject_ok w.view.testInput props dprops hdet
    rw [Frontend.trigger_of_mapped ns b w ar hin (by rw [hres]; exact hobj)]
    simp [alertsOf, List.filterMap_append]

/-- C7, witness: a backend that is down and a backend that answers with a body that is
not JSON raise the same single alert; the response of the specification's example raises
none. -/
theorem C7_witness :
    alertsOf (Frontend.trigger Sample.numberToString Sample.down (Sample.typed "hi")).1.trace
        = ["API Error: Make sure Python API is running on port 5000!"] ∧
      alertsOf (Frontend.trigger Sample.numberToString Sample.garbled
        (Sample.typed "hi")).1.trace
        = ["API Error: Make sure Python API is running on port 5000!"] ∧
      alertsOf (Frontend.trigger Sample.numberToString (Sample.respond Sample.fullResponse)
        (Sample.typed "hi")).1.trace = [] ∧
      (Frontend.trigger Sample.numberToString Sample.garbled (Sample.typed "hi")).2 = .ok () :=
  ⟨(C7_failure_becomes_one_alert Sample.numberToString Sample.down (Sample.typed "hi")
      (by decide)).2.1 _ rfl,
    (C7_failure_becomes_one_alert Sample.numberToString Sample.garbled (Sample.typed "hi")
      (by decide)).2.2.1 _ _ rfl,
    (C7_failure_becomes_one_alert Sample.numberToString (Sample.respond Sample.fullResponse)
      (Sample.typed "hi") (by decide)).2.2.2 200 Sample.fullProps Sample.detectionProps rfl
      (by decide),
    (C7_failure_becomes_one_alert Sample.numberToString Sample.garbled (Sample.typed "hi")
      (by decide)).1⟩

/-! ## The API client -/

/-- C8: for every backend, `getStats()` issues exactly one request, a GET to
`http://localhost:5000/api/stats` with no body, and nothing else happens; when the
response parses as JSON, the call returns the parsed value unchanged.  This holds for
`src/api-client.js` and for the frontend client. -/
theorem C8_getStats_one_get (b : Backend) (w : World) :
    (requestsOf (ApiClient.BiasAPI.getStats.run b w).1.trace =
        requestsOf w.trace ++ [⟨"http://localhost:5000/api/stats", "GET", [], none⟩] ∧
      (ApiClient.BiasAPI.getStats.run b w).1.view = w.view ∧
      ∀ status v, b ⟨"http://localhost:5000/api/stats", "GET", [], none⟩ =
          .resolved ⟨status, .ok v⟩ →
        (ApiClient.BiasAPI.getStats.run b w).2 = .ok v) ∧
    (requestsOf (Frontend.BiasAPI.getStats.run b w).1.trace =
        requestsOf w.trace ++ [⟨"http://localhost:5000/api/stats", "GET", [], none⟩] ∧
      (Frontend.BiasAPI.getStats.run b w).1.view = w.view ∧
      ∀ status v, b ⟨"http://localhost:5000/api/stats", "GET", [], none⟩ =
          .resolved ⟨status, .ok v⟩ →
        (Frontend.BiasAPI.getStats.run b w).2 = .ok v) := by
  rw [run_getStats_api, run_getStats_app]
  refine ⟨⟨requestsOf_issue _ _, rfl, ?_⟩, ⟨requestsOf_issue _ _, rfl, ?_⟩⟩ <;>
    · intro status v hb
      simp only [hb]
      rfl

/-- C8, witness: a backend that answers with the statistics payload `\x7b"total":[]\x7d`. -/
theorem C8_witness :
    (ApiClient.BiasAPI.getStats.run (Sample.respond (.object [("total", .array [])]))
        World.initial).2 = .ok (.object [("total", .array [])]) ∧
      (Frontend.BiasAPI.getStats.run (Sample.respond (.object [("total", .array [])]))
        World.initial).2 = .ok (.object [("total", .array [])]) :=
  ⟨(C8_getStats_one_get (Sample.respond (.object [("total", .array [])]))
      World.initial).1.2.2 200 _ rfl,
    (C8_getStats_one_get (Sample.respond (.object [("total", .array [])]))
      World.initial).2.2.2 200 _ rfl⟩

/-- C9, counterexample: the one request that `getStats()` issues carries no header. -/
theorem C9_counterexample :
    requestsOf ((Call.prog Sample.numberToString .getStats).run Sample.down
        World.initial).1.trace =
      [⟨"http://localhost:5000/api/stats", "GET", [], none⟩] ∧
    ∃ req ∈ requestsOf ((Call.prog Sample.numberToString .getStats).run Sample.down
        World.initial).1.trace,
      ("Content-Type", "application/json") ∉ req.headers := by
  decide

/-- C9, amended: every request issued by `detectBias`, `correctBias`, `fullAnalysis` and
`generateTrainingData`, in `src/api-client.js` and in the frontend client, is a POST that
carries the header `Content-Type: application/json`; `getStats` calls `fetch` with the
URL alone, and its GET carries no header set by the client. -/
theorem C9_post_requests_carry_content_type (ns : Nat → String) (b : Backend) (w : World)
    (c : Call) :
    (c ≠ .getStats →
      (∃ req, requestsOf ((c.prog ns).run b w).1.trace = requestsOf w.trace ++ [req] ∧
        req.method = "POST" ∧ ("Content-Type", "application/json") ∈ req.headers) ∧
      ∀ p, c.frontendProg ns = some p →
        ∃ req, requestsOf (p.run b w).1.trace = requestsOf w.trace ++ [req] ∧
          req.method = "POST" ∧ ("Content-Type", "application/json") ∈ req.headers) ∧
    (c = .getStats →
      (∃ req, requestsOf ((c.prog ns).run b w).1.trace = requestsOf w.trace ++ [req] ∧
        req.method = "GET" ∧ req.headers = []) ∧
      ∀ p, c.frontendProg ns = some p →
        ∃ req, requestsOf (p.run b w).1.trace = requestsOf w.trace ++ [req] ∧
          req.method = "GET" ∧ req.headers = []) := by
  cases c with
  | detectBias text =>
    refine ⟨fun _ => ⟨?_, ?_⟩, fun h => by cases h⟩
    · simp only [Call.prog, run_detectBias_api]
      exact ⟨_, requestsOf_issue _ _, rfl, by simp⟩
    · intro p hp
      simp only [Call.frontendProg, Option.some.injEq] at hp
      subst hp
      rw [run_detectBias_app]
      exact ⟨_, requestsOf_issue _ _, rfl, by simp⟩
  | correctBias text biases =>
    refine ⟨fun _ => ⟨?_, ?_⟩, fun h => by cases h⟩
    · simp only [Call.prog, run_correctBias_api]
      exact ⟨_, requestsOf_issue _ _, rfl, by simp⟩
    · intro p hp
      simp [Call.frontendProg] at hp
  | fullAnalysis text =>
    refine ⟨fun _ => ⟨?_, ?_⟩, fun h => by cases h⟩
    · simp only [Call.prog, run_fullAnalysis_api]
      exact ⟨_, requestsOf_issue _ _, rfl, by simp⟩
    · intro p hp
      simp only [Call.frontendProg, Option.some.injEq] at hp
      subst hp
      rw [Frontend.run_fullAnalysis]
      exact ⟨_, requestsOf_issue _ _, rfl, by simp⟩
  | getStats =>
    refine ⟨fun h => absurd rfl h, fun _ => ⟨?_, ?_⟩⟩
    · simp only [Call.prog, run_getStats_api]
      exact ⟨_, requestsOf_issue _ _, rfl, rfl⟩
    · intro p hp
      simp only [Call.frontendProg, Option.some.injEq] at hp
      subst hp
      rw [run_getStats_app]
      exact ⟨_, requestsOf_issue _ _, rfl, rfl⟩
  | generateTrainingData n =>
    refine ⟨fun _ => ⟨?_, ?_⟩, fun h => by cases h⟩
    · simp only [Call.prog, run_generateTrainingData_api]
      exact ⟨_, requestsOf_issue _ _, rfl, by simp⟩
    · intro p hp
      simp [Call.frontendProg] at hp

/-- C9, witness: `correctBias("hi", ["anchoring"])` against a backend that is down. -/
theorem C9_witness :
    ∃ req, requestsOf ((Call.prog Sample.numberToString
          (.correctBias (.string "hi") (.array [.string "anchoring"]))).run Sample.down
          World.initial).1.trace = requestsOf World.initial.trace ++ [req] ∧
      req.method = "POST" ∧ ("Content-Type", "application/json") ∈ req.headers :=
  ((C9_post_requests_carry_content_type Sample.numberToString Sample.down World.initial
    (.correctBias (.string "hi") (.array [.string "anchoring"]))).1
      (fun h => by cases h)).1

/-- C10: for every argument `text`, `detectBias(text)` issues exactly one request, a POST
to `http://localhost:5000/api/detect` with the header `Content-Type: application/json`
whose body is `JSON.stringify` of the object with the single property `text`; for a string
the body is the text quoted as a JSON string after `\x7b"text":`.  When the response
parses as JSON, the call returns the parsed value.  This holds for `src/api-client.js`
and for the frontend client. -/
theorem C10_detectBias_one_post (ns : Nat → String) (b : Backend) (w : World)
    (text : JSValue) :
    (requestsOf ((ApiClient.BiasAPI.detectBias ns text).run b w).1.trace =
        requestsOf w.trace ++ [⟨"http://localhost:5000/api/detect", "POST",
          [("Content-Type", "application/json")],
          JSON_stringify ns (.object [("text", text)])⟩] ∧
      ((ApiClient.BiasAPI.detectBias ns text).run b w).1.view = w.view ∧
      ∀ status v, b ⟨"http://localhost:5000/api/detect", "POST",
          [("Content-Type", "application/json")],
          JSON_stringify ns (.object [("text", text)])⟩ = .resolved ⟨status, .ok v⟩ →
        ((ApiClient.BiasAPI.detectBias ns text).run b w).2 = .ok v) ∧
    (requestsOf ((Frontend.BiasAPI.detectBias ns text).run b w).1.trace =
        requestsOf w.trace ++ [⟨"http://localhost:5000/api/detect", "POST",
          [("Content-Type", "application/json")],
          JSON_stringify ns (.object [("text", text)])⟩] ∧
      ((Frontend.BiasAPI.detectBias ns text).run b w).1.view = w.view ∧
      ∀ status v, b ⟨"http://localhost:5000/api/detect", "POST",
          [("Content-Type", "application/json")],
          JSON_stringify ns (.object [("text", text)])⟩ = .resolved ⟨status, .ok v⟩ →
        ((Frontend.BiasAPI.detectBias ns text).run b w).2 = .ok v) ∧
    (∀ t, text = .string t →
      JSON_stringify ns (.object [("text", text)]) =
        some ("\x7b\"text\":" ++ quoteJSONString t ++ "\x7d")) := by
  rw [run_detectBias_api, run_detectBias_app]
  refine ⟨⟨requestsOf_issue _ _, rfl, ?_⟩, ⟨requestsOf_issue _ _, rfl, ?_⟩, ?_⟩
  · intro status v hb
    simp only [hb]
    rfl
  · intro status v hb
    simp only [hb]
    rfl
  · intro t ht
    rw [ht]
    exact stringify_text_string ns t

/-- C10, witness: `detectBias("a\"b")` sends the body `\x7b"text":"a\\"b"\x7d` and
returns the detection payload of the backend. -/
theorem C10_witness :
    requestsOf ((ApiClient.BiasAPI.detectBias Sample.numberToString (.string "a\"b")).run
        (Sample.respond (.object Sample.detectionProps)) World.initial).1.trace =
      [⟨"http://localhost:5000/api/detect", "POST", [("Content-Type", "application/json")],
        some "\x7b\"text\":\"a\\\"b\"\x7d"⟩] ∧
    ((Frontend.BiasAPI.detectBias Sample.numberToString (.string "a\"b")).run
        (Sample.respond (.object Sample.detectionProps)) World.initial).2 =
      .ok (.object Sample.detectionProps) := by
  have h := C10_detectBias_one_post Sample.numberToString
    (Sample.respond (.object Sample.detectionProps)) World.initial (.string "a\"b")
  refine ⟨?_, h.2.1.2.2 200 _ rfl⟩
  rw [h.1.1, h.2.2 _ rfl]
  decide

/-- Elements that are all strings are written in their order, each quoted. -/
theorem stringifyItems_strings (ns : Nat → String) (ids : List String) :
    stringifyItems ns (ids.map JSValue.string) = ids.map quoteJSONString := by
  induction ids with
  | nil => rfl
  | cons x rest ih => simp [stringifyItems, JSON_stringify, ih]

/-- C11: for every `text` and `biases`, `correctBias(text, biases)` issues exactly one
request, a POST to `http://localhost:5000/api/correct` with the header
`Content-Type: application/json` whose body is `JSON.stringify` of the object with the
property `text` followed by the property `biases`; a list of bias identifiers is written
element by element in its order.  When the response parses as JSON, the call returns the
parsed value. -/
theorem C11_correctBias_one_post (ns : Nat → String) (b : Backend) (w : World)
    (text biases : JSValue) :
    requestsOf ((ApiClient.BiasAPI.correctBias ns text biases).run b w).1.trace =
        requestsOf w.trace ++ [⟨"http://localhost:5000/api/correct", "POST",
          [("Content-Type", "application/json")],
          JSON_stringify ns (.object [("text", text), ("biases", biases)])⟩] ∧
      ((ApiClient.BiasAPI.correctBias ns text biases).run b w).1.view = w.view ∧
      (∀ status v, b ⟨"http://localhost:5000/api/correct", "POST",
          [("Content-Type", "application/json")],
          JSON_stringify ns (.object [("text", text), ("biases", biases)])⟩ =
            .resolved ⟨status, .ok v⟩ →
        ((ApiClient.BiasAPI.correctBias ns text biases).run b w).2 = .ok v) ∧
      (∀ (t : String) (ids : List String),
        text = .string t → biases = .array (ids.map JSValue.string) →
        JSON_stringify ns (.object [("text", text), ("biases", biases)]) =
          some ("\x7b\"text\":" ++ quoteJSONString t ++ ",\"biases\":[" ++
            ",".intercalate (ids.map quoteJSONString) ++ "]\x7d")) := by
  rw [run_correctBias_api]
  refine ⟨requestsOf_issue _ _, rfl, ?_, ?_⟩
  · intro status v hb
    simp only [hb]
    rfl
  · intro t ids ht hb
    have hq1 : quoteJSONString "text" ++ ":" = "\"text\":" := by decide
    have hq2 : quoteJSONString "biases" ++ ":" = "\"biases\":" := by decide
    subst ht hb
    simp only [JSON_stringify, stringifyProps, stringifyItems_strings, hq1, hq2,
      String.intercalate, String.intercalate.go]
    congr 1
    apply String.ext
    simp only [String.data_append, List.append_assoc]
    rfl

/-- C11, witness: `correctBias("hi", ["anchoring", "recency"])`. -/
theorem C11_witness :
    requestsOf ((ApiClient.BiasAPI.correctBias Sample.numberToString (.string "hi")
        (.array [.string "anchoring", .string "recency"])).run
        (Sample.respond (.object Sample.correctionProps)) World.initial).1.trace =
      [⟨"http://localhost:5000/api/correct", "POST", [("Content-Type", "application/json")],
        some "\x7b\"text\":\"hi\",\"biases\":[\"anchoring\",\"recency\"]\x7d"⟩] ∧
    ((ApiClient.BiasAPI.correctBias Sample.numberToString (.string "hi")
        (.array [.string "anchoring", .string "recency"])).run
        (Sample.respond (.object Sample.correctionProps)) World.initial).2 =
      .ok (.object Sample.correctionProps) := by
  have h := C11_correctBias_one_post Sample.numberToString
    (Sample.respond (.object Sample.correctionProps)) World.initial (.string "hi")
    (.array [.string "anchoring", .string "recency"])
  refine ⟨?_, h.2.2.1 200 _ rfl⟩
  rw [h.1, h.2.2.2 "hi" ["anchoring", "recency"] rfl rfl]
  decide

/-- C12: for every `numExamples`, `generateTrainingData(numExamples)` issues exactly one
request, a POST to `http://localhost:5000/api/training/generate` with the header
`Content-Type: application/json` whose body is `JSON.stringify` of the object with the
single property `num_examples`; for a finite number the body is its decimal form after
`\x7b"num_examples":`.  When the response parses as JSON, the call returns the parsed
value. -/
theorem C12_generateTrainingData_one_post (ns : Nat → String) (b : Backend) (w : World)
    (numExamples : JSValue) :
    requestsOf ((ApiClient.BiasAPI.generateTrainingData ns numExamples).run b w).1.trace =
        requestsOf w.trace ++ [⟨"http://localhost:5000/api/training/generate", "POST",
          [("Content-Type", "application/json")],
          JSON_stringify ns (.object [("num_examples", numExamples)])⟩] ∧
      ((ApiClient.BiasAPI.generateTrainingData ns numExamples).run b w).1.view = w.view ∧
      (∀ status v, b ⟨"http://localhost:5000/api/training/generate", "POST",
          [("Content-Type", "application/json")],
          JSON_stringify ns (.object [("num_examples", numExamples)])⟩ =
            .resolved ⟨status, .ok v⟩ →
        ((ApiClient.BiasAPI.generateTrainingData ns numExamples).run b w).2 = .ok v) ∧
      (∀ bits, numExamples = .number bits → JSValue.isFinite bits = true →
        JSON_stringify ns (.object [("num_examples", numExamples)]) =
          some ("\x7b\"num_examples\":" ++ ns bits ++ "\x7d")) := by
  rw [run_generateTrainingData_api]
  refine ⟨requestsOf_issue _ _, rfl, ?_, ?_⟩
  · intro status v hb
    simp only [hb]
    rfl
  · intro bits hn hfin
    subst hn
    simp only [JSON_stringify, stringifyProps, hfin, if_true, String.intercalate,
      String.intercalate.go]
    congr 1

/-- C12, witness: `generateTrainingData(0)`; the number `+0` is written `0`. -/
theorem C12_witness :
    requestsOf ((ApiClient.BiasAPI.generateTrainingData Sample.numberToString
        (.number 0)).run (Sample.respond (.object [("generated", .number 0)]))
        World.initial).1.trace =
      [⟨"http://localhost:5000/api/training/generate", "POST",
        [("Content-Type", "application/json")], some "\x7b\"num_examples\":0\x7d"⟩] ∧
    ((ApiClient.BiasAPI.generateTrainingData Sample.numberToString (.number 0)).run
        (Sample.respond (.object [("generated", .number 0)])) World.initial).2 =
      .ok (.object [("generated", .number 0)]) := by
  have h := C12_generateTrainingData_one_post Sample.numberToString
    (Sample.respond (.object [("generated", .number 0)])) World.initial (.number 0)
  refine ⟨?_, h.2.2.1 200 _ rfl⟩
  rw [h.1, h.2.2.2 0 rfl (by decide)]
  decide

/-- C13: every operation of the API client, in `src/api-client.js` and in the frontend
client, makes a single attempt and propagates failure: whatever the arguments and the
backend, it issues exactly one request; if `fetch` rejects with an error, or if
`response.json()` rejects with an error, the operation rejects with that same error. -/
theorem C13_single_attempt_propagates_failure (ns : Nat → String) (b : Backend) (w : World)
    (c : Call) :
    (∃ req, requestsOf ((c.prog ns).run b w).1.trace = requestsOf w.trace ++ [req] ∧
      (∀ e, b req = .rejected e → ((c.prog ns).run b w).2 = .error e) ∧
      (∀ status e, b req = .resolved ⟨status, .error e⟩ →
        ((c.prog ns).run b w).2 = .error e)) ∧
    (∀ p, c.frontendProg ns = some p →
      ∃ req, requestsOf (p.run b w).1.trace = requestsOf w.trace ++ [req] ∧
        (∀ e, b req = .rejected e → (p.run b w).2 = .error e) ∧
        (∀ status e, b req = .resolved ⟨status, .error e⟩ → (p.run b w).2 = .error e)) := by
  constructor
  · obtain ⟨req, hrun⟩ := run_call_api ns b w c
    rw [hrun]
    refine ⟨req, requestsOf_issue _ _, ?_, ?_⟩
    · intro e he
      simp only [he]
      rfl
    · intro status e he
      simp only [he]
      rfl
  · intro p hp
    obtain ⟨req, hrun⟩ := run_call_app ns b w c p hp
    rw [hrun]
    refine ⟨req, requestsOf_issue _ _, ?_, ?_⟩
    · intro e he
      simp only [he]
      rfl
    · intro status e he
      simp only [he]
      rfl

/-- C13, witness: against a backend that is down `getStats()` rejects with the error of
`fetch`, and against a backend whose body is not JSON `detectBias("hi")` of the frontend
client rejects with the error of the parse; each issued one request. -/
theorem C13_witness :
    ((Call.prog Sample.numberToString .getStats).run Sample.down World.initial).2 =
        .error ⟨"TypeError", "Failed to fetch"⟩ ∧
      (requestsOf ((Call.prog Sample.numberToString .getStats).run Sample.down
        World.initial).1.trace).length = 1 ∧
      ((Frontend.BiasAPI.detectBias Sample.numberToString (.string "hi")).run Sample.garbled
        World.initial).2 =
        .error ⟨"SyntaxError", "Unexpected token < in JSON at position 0"⟩ := by
  obtain ⟨req, hreq, hrej, -⟩ :=
    (C13_single_attempt_propagates_failure Sample.numberToString Sample.down World.initial
      .getStats).1
  obtain ⟨req2, -, -, hparse⟩ :=
    (C13_single_attempt_propagates_failure Sample.numberToString Sample.garbled
      World.initial (.detectBias (.string "hi"))).2 _ rfl
  refine ⟨hrej _ rfl, ?_, hparse _ _ rfl⟩
  rw [hreq]
  rfl

/-! ## The view as a reactive system -/

/-- A fresh mount satisfies the invariant. -/
theorem guarded_initial : Frontend.Session.initial.Guarded := Or.inl rfl

/-- Every event preserves the invariant. -/
theorem guarded_step (ns : Nat → String) (s : Frontend.Session) (ev : Frontend.SessionEvent)
    (hs : s.Guarded) : (s.step ns ev).Guarded := by
  cases ev with
  | changeInput value =>
    simp only [Frontend.Session.step]
    split
    · exact hs
    · exact hs
  | clickTab id =>
    simp only [Frontend.Session.step]
    split
    · exact hs
    · exact hs
  | clickBias id =>
    simp only [Frontend.Session.step]
    split
    · exact hs
    · exact hs
  | clickAnalyze =>
    simp only [Frontend.Session.step]
    split
    · rename_i hen
      have hdis := hen.2
      simp only [Frontend.analyzeDisabled, Bool.or_eq_false_iff] at hdis
      have hnb := (guard_eq_false_iff _).mp hdis.2
      have hidle : s.pending = [] := by
        rcases hs with h0 | ⟨hbusy, -⟩
        · exact h0
        · rw [hdis.1] at hbusy; cases hbusy
      obtain ⟨k, hk, hks⟩ := Frontend.advance_runBiasAnalysis ns _ s.world hnb
      right
      simp only [Frontend.Session.spawn, hk, hidle, List.nil_append]
      refine ⟨trivial, ⟨_, k⟩, rfl, rfl, ?_⟩
      intro o w
      rw [hks o w]
      cases o.settle >>= Frontend.analysisObject s.world.view.testInput with
      | ok ar => exact ⟨_, _, rfl, rfl⟩
      | error e => exact ⟨_, _, rfl, rfl⟩
    · exact hs
  | settle index outcome =>
    simp only [Frontend.Session.step]
    rcases hs with h0 | ⟨hbusy, p, hp, hurl, hres⟩
    · rw [h0]
      exact Or.inl h0
    · rw [hp]
      cases index with
      | zero =>
        obtain ⟨w1, r, hadv, -⟩ := hres outcome s.world
        left
        simp [Frontend.Session.spawn, hadv]
      | succ n =>
        simp only [List.get?, List.get?_nil]
        exact Or.inr ⟨hbusy, p, hp, hurl, hres⟩

/-- Every session reachable from a session that satisfies the invariant satisfies it. -/
theorem guarded_steps (ns : Nat → String) (events : List Frontend.SessionEvent)
    (s : Frontend.Session) (hs : s.Guarded) : (s.steps ns events).Guarded := by
  induction events generalizing s with
  | nil => exact hs
  | cons ev rest ih => exact ih _ (guarded_step ns s ev hs)

/-- C14: in every state reachable from the fresh mount by user events (typing, clicking
the Analyze button, a tab or a bias card) and by request completions, at most one
request is in flight; a request in flight is the `/analyze` request, and the busy flag,
which disables the Analyze button, is set while it is in flight.  The bound is reached:
after opening the analysis tab, typing `hi` and clicking Analyze, one request is in
flight. -/
theorem C14_at_most_one_in_flight (ns : Nat → String) (events : List Frontend.SessionEvent) :
    (Frontend.Session.initial.steps ns events).pending.length ≤ 1 ∧
      (∀ p ∈ (Frontend.Session.initial.steps ns events).pending,
        p.request.url = "http://localhost:5000/api/analyze" ∧
        (Frontend.Session.initial.steps ns events).world.view.isAnalyzing = true ∧
        Frontend.analyzeDisabled (Frontend.Session.initial.steps ns events).world.view
          = true) ∧
      (Frontend.Session.initial.steps ns
        [.clickTab "analysis", .changeInput "hi", .clickAnalyze]).pending.length = 1 := by
  have hg := guarded_steps ns events _ guarded_initial
  refine ⟨?_, ?_, ?_⟩
  · rcases hg with h0 | ⟨-, p, hp, -⟩
    · simp [h0]
    · simp [hp]
  · intro p hp
    rcases hg with h0 | ⟨hbusy, q, hq, hurl, -⟩
    · rw [h0] at hp; cases hp
    · rw [hq] at hp
      simp only [List.mem_singleton] at hp
      subst hp
      exact ⟨hurl, hbusy, by simp [Frontend.analyzeDisabled, hbusy]⟩
  · rfl

/-- C15, counterexample: after typing `hi`, clicking Analyze and switching to the tab
`training`, the input text is still `hi` and the busy flag is still set; and when the
response of the specification's example has arrived before the switch, the Analysis
Result is still there after it. -/
theorem C15_counterexample :
    (Frontend.Session.initial.steps Sample.numberToString
        [.clickTab "analysis", .changeInput "hi", .clickAnalyze,
          .clickTab "training"]).world.view.activeTab = "training" ∧
      (Frontend.Session.initial.steps Sample.numberToString
        [.clickTab "analysis", .changeInput "hi", .clickAnalyze,
          .clickTab "training"]).world.view.testInput ≠ ViewState.initial.testInput ∧
      (Frontend.Session.initial.steps Sample.numberToString
        [.clickTab "analysis", .changeInput "hi", .clickAnalyze,
          .clickTab "training"]).world.view.isAnalyzing ≠ ViewState.initial.isAnalyzing ∧
      (Frontend.Session.initial.steps Sample.numberToString
        [.clickTab "analysis", .changeInput "hi", .clickAnalyze,
          .settle 0 (.resolved ⟨200, .ok Sample.fullResponse⟩),
          .clickTab "training"]).world.view.analysisResult ≠
        ViewState.initial.analysisResult := by
  decide

/-- C15, amended: a tab switch writes the cell `activeTab` and nothing else: after the
user clicks a navigation tab, the input text, the Analysis Result, the busy flag and the
selected bias hold the values they held before, nothing is added to the history, and the
handlers in flight are the same. -/
theorem C15_tab_switch_keeps_view_state (ns : Nat → String) (s : Frontend.Session)
    (id : String) :
    (s.step ns (.clickTab id)).world.view.testInput = s.world.view.testInput ∧
      (s.step ns (.clickTab id)).world.view.analysisResult = s.world.view.analysisResult ∧
      (s.step ns (.clickTab id)).world.view.isAnalyzing = s.world.view.isAnalyzing ∧
      (s.step ns (.clickTab id)).world.view.selectedBias = s.world.view.selectedBias ∧
      (s.step ns (.clickTab id)).world.trace = s.world.trace ∧
      (s.step ns (.clickTab id)).pending = s.pending ∧
      (id ∈ Frontend.tabIds → (s.step ns (.clickTab id)).world.view.activeTab = id) := by
  simp only [Frontend.Session.step]
  split
  · rename_i hid
    exact ⟨rfl, rfl, rfl, rfl, rfl, rfl, fun _ => rfl⟩
  · rename_i hid
    exact ⟨rfl, rfl, rfl, rfl, rfl, rfl, fun h => absurd h hid⟩

/-- C16: for every input that passes the guard, the handler sets the busy flag and only
then issues the request, and is suspended with the flag set; until the request settles
no user event clears the flag; and when the request settles, whatever its outcome
(a mapped response, a rejection, a response that cannot be mapped) and whatever the
state is by then, the rest of the handler ends with the flag cleared and its promise
resolved. -/
theorem C16_idle_busy_idle (ns : Nat → String) (w : World)
    (hin : ∃ c ∈ w.view.testInput.data, isWhiteSpace c = false) :
    (∃ k, (Frontend.runBiasAnalysis ns w.view.testInput).advance w =
        (⟨{ w.view with isAnalyzing := true },
          w.trace ++ [.action (.setIsAnalyzing true),
            .request (analyzeRequest ns w.view.testInput)]⟩,
          .waiting (analyzeRequest ns w.view.testInput) k) ∧
      ∀ o w1, ((k o).advance w1).1.view.isAnalyzing = false ∧
        ((k o).advance w1).2 = .done (.ok ())) ∧
    (∀ (s : Frontend.Session) (ev : Frontend.SessionEvent),
      s.world.view.isAnalyzing = true → (∀ i o, ev ≠ .settle i o) →
      (s.step ns ev).world.view.isAnalyzing = true) := by
  constructor
  · obtain ⟨k, hk, hks⟩ := Frontend.advance_runBiasAnalysis ns _ w hin
    refine ⟨k, hk, ?_⟩
    intro o w1
    rw [hks o w1]
    cases o.settle >>= Frontend.analysisObject w.view.testInput with
    | ok ar => exact ⟨rfl, rfl⟩
    | error e => exact ⟨rfl, rfl⟩
  · intro s ev hbusy hev
    cases ev with
    | changeInput value =>
      simp only [Frontend.Session.step]
      split <;> exact hbusy
    | clickTab id =>
      simp only [Frontend.Session.step]
      split <;> exact hbusy
    | clickBias id =>
      simp only [Frontend.Session.step]
      split <;> exact hbusy
    | clickAnalyze =>
      have hdis : Frontend.analyzeDisabled s.world.view = true := by
        simp [Frontend.analyzeDisabled, hbusy]
      simp only [Frontend.Session.step, hdis]
      rw [if_neg (by simp)]
      exact hbusy
    | settle i o => exact absurd rfl (hev i o)

/-- C16, witness: with `hi` typed, the busy flag is set once the handler is suspended
and cleared after each of three outcomes: the response of the specification's example, a
rejection, and the response `null`. -/
theorem C16_witness :
    ((Frontend.runBiasAnalysis Sample.numberToString "hi").advance
        (Sample.typed "hi")).1.view.isAnalyzing = true ∧
      ((Frontend.Session.steps Sample.numberToString ⟨Sample.typed "hi", []⟩
        [.clickTab "analysis", .clickAnalyze,
          .settle 0 (.resolved ⟨200, .ok Sample.fullResponse⟩)]).world.view.isAnalyzing,
       (Frontend.Session.steps Sample.numberToString ⟨Sample.typed "hi", []⟩
        [.clickTab "analysis", .clickAnalyze,
          .settle 0 (.rejected ⟨"TypeError", "Failed to fetch"⟩)]).world.view.isAnalyzing,
       (Frontend.Session.steps Sample.numberToString ⟨Sample.typed "hi", []⟩
        [.clickTab "analysis", .clickAnalyze,
          .settle 0 (.resolved ⟨200, .ok .null⟩)]).world.view.isAnalyzing) =
        (false, false, false) := by
  obtain ⟨⟨k, hk, -⟩, -⟩ := C16_idle_busy_idle Sample.numberToString (Sample.typed "hi")
    (by decide)
  refine ⟨?_, by decide⟩
  have h1 := congrArg (fun r => r.1.view.isAnalyzing) hk
  exact h1

/-- C17: in every view state the Analyze button is disabled exactly when the busy flag is
set or the trimmed input is empty, that is, when the flag is set or the input has no
character other than white space; in particular it is disabled whenever the flag is set,
and a click on the disabled button changes nothing. -/
theorem C17_disabled_iff_busy_or_blank (ns : Nat → String) (s : Frontend.Session) :
    Frontend.analyzeDisabled s.world.view =
        (s.world.view.isAnalyzing || decide (trim s.world.view.testInput = "")) ∧
      (Frontend.analyzeDisabled s.world.view = true ↔
        s.world.view.isAnalyzing = true ∨
          ∀ c ∈ s.world.view.testInput.data, isWhiteSpace c = true) ∧
      (s.world.view.isAnalyzing = true → Frontend.analyzeDisabled s.world.view = true) ∧
      (Frontend.analyzeDisabled s.world.view = true → s.step ns .clickAnalyze = s) := by
  have hiff : Frontend.analyzeDisabled s.world.view = true ↔
      s.world.view.isAnalyzing = true ∨
        ∀ c ∈ s.world.view.testInput.data, isWhiteSpace c = true := by
    rw [← guard_eq_true_iff]
    simp [Frontend.analyzeDisabled]
  refine ⟨?_, hiff, fun hb => hiff.mpr (Or.inl hb), ?_⟩
  · have htrim : (!(JSValue.string (trim s.world.view.testInput)).toBoolean) =
        decide (trim s.world.view.testInput = "") := by
      rw [Bool.eq_iff_iff, guard_eq_true_iff, decide_eq_true_iff,
        ← trimChars_eq_nil_iff]
      constructor
      · intro h
        exact String.ext h
      · intro h
        exact congrArg String.data h
    simp only [Frontend.analyzeDisabled, htrim]
  · intro hdis
    simp only [Frontend.Session.step, hdis]
    rw [if_neg (by simp)]

/-- C17, witness: the button is disabled for a blank input and while busy, and enabled
for `hi` when idle. -/
theorem C17_witness :
    Frontend.analyzeDisabled (Sample.typed " \n").view = true ∧
      Frontend.analyzeDisabled { (Sample.typed "hi").view with isAnalyzing := true } = true ∧
      Frontend.analyzeDisabled (Sample.typed "hi").view = false := by
  refine ⟨?_, ?_, ?_⟩
  · exact (C17_disabled_iff_busy_or_blank Sample.numberToString
      ⟨Sample.typed " \n", []⟩).2.1.mpr (Or.inr (by decide))
  · exact (C17_disabled_iff_busy_or_blank Sample.numberToString
      ⟨⟨{ (Sample.typed "hi").view with isAnalyzing := true }, []⟩, []⟩).2.2.1 rfl
  · decide

/-- C18: `runBiasAnalysis` does not read the busy flag: for every non-blank input, a call
in a state where `isAnalyzing` is already true issues a new POST to `/api/analyze`, in
`App.js` and in the copy of `src/api-client.js`; two calls of the handler that do not go
through the button leave two requests in flight. -/
theorem C18_handler_ignores_busy_flag (ns : Nat → String) (b : Backend) (w : World)
    (hin : ∃ c ∈ w.view.testInput.data, isWhiteSpace c = false)
    (_hbusy : w.view.isAnalyzing = true) :
    requestsOf (Frontend.trigger ns b w).1.trace =
        requestsOf w.trace ++
          [⟨"http://localhost:5000/api/analyze", "POST",
            [("Content-Type", "application/json")],
            JSON_stringify ns (.object [("text", .string w.view.testInput)])⟩] ∧
      requestsOf ((ApiClient.runBiasAnalysis ns w.view.testInput).run b w).1.trace =
        requestsOf w.trace ++
          [⟨"http://localhost:5000/api/analyze", "POST",
            [("Content-Type", "application/json")],
            JSON_stringify ns (.object [("text", .string w.view.testInput)])⟩] ∧
      (Frontend.Session.spawn
        (Frontend.Session.spawn ⟨w, []⟩ (Frontend.runBiasAnalysis ns w.view.testInput))
        (Frontend.runBiasAnalysis ns w.view.testInput)).pending.length = 2 := by
  refine ⟨?_, ?_, ?_⟩
  · unfold Frontend.trigger
    rw [Frontend.run_runBiasAnalysis ns b _ w hin]
    cases (b (analyzeRequest ns w.view.testInput)).settle >>=
        Frontend.analysisObject w.view.testInput <;>
      simp [requestsOf, List.filterMap_append, analyzeRequest]
  · rw [ApiClient.run_runBiasAnalysis_api ns b _ w hin]
    cases (b (analyzeRequest ns w.view.testInput)).settle >>=
        ApiClient.analysisObject w.view.testInput <;>
      simp [requestsOf, List.filterMap_append, analyzeRequest]
  · obtain ⟨k, hk, -⟩ := Frontend.advance_runBiasAnalysis ns _ w hin
    have h1 : Frontend.Session.spawn ⟨w, []⟩ (Frontend.runBiasAnalysis ns w.view.testInput) =
        ⟨⟨{ w.view with isAnalyzing := true },
          w.trace ++ [.action (.setIsAnalyzing true),
            .request (analyzeRequest ns w.view.testInput)]⟩,
          [⟨analyzeRequest ns w.view.testInput, k⟩]⟩ := by
      simp only [Frontend.Session.spawn, hk, List.nil_append]
    rw [h1]
    obtain ⟨k2, hk2, -⟩ := Frontend.advance_runBiasAnalysis ns w.view.testInput
      ⟨{ w.view with isAnalyzing := true },
        w.trace ++ [.action (.setIsAnalyzing true),
          .request (analyzeRequest ns w.view.testInput)]⟩ hin
    simp only [Frontend.Session.spawn, hk2]
    rfl

/-- C18, witness: the busy flag is set, `hi` is typed, and the handler is called. -/
theorem C18_witness :
    requestsOf (Frontend.trigger Sample.numberToString Sample.down
        ⟨{ (Sample.typed "hi").view with isAnalyzing := true }, []⟩).1.trace =
      [⟨"http://localhost:5000/api/analyze", "POST", [("Content-Type", "application/json")],
        some "\x7b\"text\":\"hi\"\x7d"⟩] := by
  rw [(C18_handler_ignores_busy_flag Sample.numberToString Sample.down
    ⟨{ (Sample.typed "hi").view with isAnalyzing := true }, []⟩ (by decide) rfl).1]
  decide

/-- C19: for every input that passes the guard and every response with a detection
object and a correction sub-object, in `App.js` and in the copy of `src/api-client.js`:
when `correction.corrected` is falsy, in particular the empty string, `null` or missing,
`correctedResponse` is the input text; when `correction.recommendations` is falsy, in
particular `null` or missing, `recommendations` is the empty list. -/
theorem C19_defaults_apply_to_falsy (ns : Nat → String) (b : Backend) (w : World)
    (status : Nat) (props dprops cprops : List (String × JSValue))
    (hin : ∃ c ∈ w.view.testInput.data, isWhiteSpace c = false)
    (hresp : b (analyzeRequest ns w.view.testInput) =
      .resolved ⟨status, .ok (.object props)⟩)
    (hdet : JSValue.lookup "detection" props = .object dprops)
    (hcor : JSValue.lookup "correction" props = .object cprops) :
    ∃ ar, (Frontend.trigger ns b w).1.view.analysisResult = some ar ∧
      ((ApiClient.runBiasAnalysis ns w.view.testInput).run b w).1.view.analysisResult =
        some ar ∧
      ((JSValue.lookup "corrected" cprops).toBoolean = false →
        ar.correctedResponse = .string w.view.testInput) ∧
      (JSValue.lookup "corrected" cprops = .string "" ∨
        JSValue.lookup "corrected" cprops = .null ∨
        "corrected" ∉ cprops.map Prod.fst →
        ar.correctedResponse = .string w.view.testInput) ∧
      ((JSValue.lookup "recommendations" cprops).toBoolean = false →
        ar.recommendations = .array []) ∧
      (JSValue.lookup "recommendations" cprops = .null ∨
        "recommendations" ∉ cprops.map Prod.fst →
        ar.recommendations = .array []) := by
  have hobj := Frontend.analysisObject_of_detection w.view.testInput props dprops
    (JSValue.lookup "corrected" cprops) (JSValue.lookup "recommendations" cprops) hdet
    (by rw [hcor]; rfl) (by rw [hcor]; rfl)
  rw [Frontend.trigger_of_mapped ns b w _ hin (by rw [hresp]; exact hobj),
    run_api_of_mapped ns b w _ hin (by rw [hresp]; exact hobj)]
  have hc : (JSValue.lookup "corrected" cprops).toBoolean = false →
      (JSValue.lookup "corrected" cprops).or (.string w.view.testInput) =
        .string w.view.testInput := by
    intro hf
    simp [JSValue.or, hf]
  have hr : (JSValue.lookup "recommendations" cprops).toBoolean = false →
      (JSValue.lookup "recommendations" cprops).or (.array []) = .array [] := by
    intro hf
    simp [JSValue.or, hf]
  refine ⟨_, rfl, rfl, hc, ?_, hr, ?_⟩
  · intro h
    apply hc
    rcases h with h | h | h
    · rw [h]; rfl
    · rw [h]; rfl
    · rw [lookup_of_not_mem _ _ h]; rfl
  · intro h
    apply hr
    rcases h with h | h
    · rw [h]; rfl
    · rw [lookup_of_not_mem _ _ h]; rfl

/-- C19, witness: the correction of the response is `\x7b"corrected":""\x7d`, the input
is `abc`: `correctedResponse` is `abc` and `recommendations` is the empty list. -/
theorem C19_witness :
    (Frontend.trigger Sample.numberToString
        (Sample.respond (.object [("detection", .object Sample.detectionProps),
          ("correction", .object [("corrected", .string "")])]))
        (Sample.typed "abc")).1.view.analysisResult.map
          (fun r => (r.correctedResponse, r.recommendations)) =
      some (.string "abc", .array []) := by
  obtain ⟨ar, hset, -, -, hc, -, hr⟩ :=
    C19_defaults_apply_to_falsy Sample.numberToString
      (Sample.respond (.object [("detection", .object Sample.detectionProps),
        ("correction", .object [("corrected", .string "")])]))
      (Sample.typed "abc") 200
      [("detection", .object Sample.detectionProps),
        ("correction", .object [("corrected", .string "")])]
      Sample.detectionProps [("corrected", .string "")]
      (by decide) rfl (by decide) (by decide)
  rw [hset, Option.map, hc (Or.inl (by decide)), hr (Or.inr (by decide))]
  rfl

/-- C20: for every input that passes the guard and every response that parses as JSON:
when the response has no detection to read, that is, when it is `null` (or `undefined`),
a boolean, a number, a string or an array, or an object whose `detection` property is
missing, `undefined` or `null`, the handler raises the alert, does not call
`setAnalysisResult`, leaves `analysisResult` as it was and ends with the busy flag
cleared; when the `detection` property is an object, the Analysis Result is set from it
as it is, with no alert, and a property that the detection lacks is copied as
`undefined`. -/
theorem C20_missing_detection_is_failure (ns : Nat → String) (b : Backend) (w : World)
    (status : Nat) (result : JSValue)
    (hin : ∃ c ∈ w.view.testInput.data, isWhiteSpace c = false)
    (hresp : b (analyzeRequest ns w.view.testInput) = .resolved ⟨status, .ok result⟩) :
    ((result = .null ∨ result = .undefined ∨ (∃ x, result = .bool x) ∨
        (∃ x, result = .number x) ∨ (∃ x, result = .string x) ∨
        (∃ items, result = .array items) ∨
        (∃ props, result = .object props ∧
          ("detection" ∉ props.map Prod.fst ∨
            JSValue.lookup "detection" props = .undefined ∨
            JSValue.lookup "detection" props = .null)) →
      alertsOf (Frontend.trigger ns b w).1.trace = alertsOf w.trace ++
          ["API Error: Make sure Python API is running on port 5000!"] ∧
        resultsSetOf (Frontend.trigger ns b w).1.trace = resultsSetOf w.trace ∧
        (Frontend.trigger ns b w).1.view.analysisResult = w.view.analysisResult ∧
        (Frontend.trigger ns b w).1.view.isAnalyzing = false ∧
        (Frontend.trigger ns b w).2 = .ok ())) ∧
    (∀ props dprops, result = .object props →
      JSValue.lookup "detection" props = .object dprops →
      ∃ ar, (Frontend.trigger ns b w).1.view.analysisResult = some ar ∧
        resultsSetOf (Frontend.trigger ns b w).1.trace = resultsSetOf w.trace ++ [ar] ∧
        alertsOf (Frontend.trigger ns b w).1.trace = alertsOf w.trace ∧
        (Frontend.trigger ns b w).1.view.isAnalyzing = false ∧
        ar.biasesDetected = JSValue.lookup "biases_detected" dprops ∧
        ar.severity = JSValue.lookup "severity" dprops ∧
        ar.confidence = JSValue.lookup "confidence" dprops ∧
        ar.reasoning = JSValue.lookup "reasoning" dprops ∧
        ("biases_detected" ∉ dprops.map Prod.fst → ar.biasesDetected = .undefined) ∧
        ("severity" ∉ dprops.map Prod.fst → ar.severity = .undefined) ∧
        ("confidence" ∉ dprops.map Prod.fst → ar.confidence = .undefined) ∧
        ("reasoning" ∉ dprops.map Prod.fst → ar.reasoning = .undefined)) := by
  constructor
  · intro hbad
    obtain ⟨e, he⟩ : ∃ e, Frontend.analysisObject w.view.testInput result = .error e := by
      apply analysisObject_without_detection
      intro props hobj
      rcases hbad with h | h | ⟨x, h⟩ | ⟨x, h⟩ | ⟨x, h⟩ | ⟨x, h⟩ | ⟨q, h, hq⟩
      · rw [h] at hobj; cases hobj
      · rw [h] at hobj; cases hobj
      · rw [h] at hobj; cases hobj
      · rw [h] at hobj; cases hobj
      · rw [h] at hobj; cases hobj
      · rw [h] at hobj; cases hobj
      · rw [h] at hobj
        cases hobj
        rcases hq with hq | hq | hq
        · exact Or.inl (lookup_of_not_mem _ _ hq)
        · exact Or.inl hq
        · exact Or.inr hq
    rw [Frontend.trigger_of_failed ns b w e hin (by rw [hresp]; exact he)]
    refine ⟨?_, ?_, rfl, rfl, rfl⟩
    · simp [alertsOf, List.filterMap_append]
    · simp [resultsSetOf, List.filterMap_append]
  · intro props dprops hres hdet
    subst hres
    obtain ⟨ar, hobj, h1, h2, h3, h4, -, -⟩ :=
      Frontend.analysisObject_ok w.view.testInput props dprops hdet
    rw [Frontend.trigger_of_mapped ns b w ar hin (by rw [hresp]; exact hobj)]
    refine ⟨ar, rfl, ?_, ?_, rfl, h1, h2, h3, h4, ?_, ?_, ?_, ?_⟩
    · simp [resultsSetOf, List.filterMap_append]
    · simp [alertsOf, List.filterMap_append]
    · intro h; rw [h1, lookup_of_not_mem _ _ h]
    · intro h; rw [h2, lookup_of_not_mem _ _ h]
    · intro h; rw [h3, lookup_of_not_mem _ _ h]
    · intro h; rw [h4, lookup_of_not_mem _ _ h]

/-- C20, witness: each of the responses `null`, `5`, `"abc"`, `[]`, `true`,
`\x7b\x7d` and `\x7b"detection":null\x7d` raises the one alert and sets no result; the
response `\x7b"detection":\x7b\x7d\x7d` sets a result whose detection fields are
`undefined`. -/
theorem C20_witness :
    (∀ result ∈ [JSValue.null, .number 0x4014000000000000, .string "abc", .array [],
        .bool true, .object [], .object [("detection", .null)]],
      alertsOf (Frontend.trigger Sample.numberToString (Sample.respond result)
          (Sample.typed "hi")).1.trace =
        ["API Error: Make sure Python API is running on port 5000!"] ∧
      resultsSetOf (Frontend.trigger Sample.numberToString (Sample.respond result)
          (Sample.typed "hi")).1.trace = [] ∧
      (Frontend.trigger Sample.numberToString (Sample.respond result)
          (Sample.typed "hi")).1.view.analysisResult = none ∧
      (Frontend.trigger Sample.numberToString (Sample.respond result)
          (Sample.typed "hi")).1.view.isAnalyzing = false) ∧
    (Frontend.trigger Sample.numberToString
        (Sample.respond (.object [("detection", .object [])]))
        (Sample.typed "hi")).1.view.analysisResult =
      some ⟨"hi", .undefined, .undefined, .undefined, "hi", .string "hi", .undefined,
        .array []⟩ := by
  have hfail : ∀ result,
      (result = .null ∨ result = .undefined ∨ (∃ x, result = .bool x) ∨
        (∃ x, result = .number x) ∨ (∃ x, result = .string x) ∨
        (∃ items, result = .array items) ∨
        (∃ props, result = .object props ∧
          ("detection" ∉ props.map Prod.fst ∨
            JSValue.lookup "detection" props = .undefined ∨
            JSValue.lookup "detection" props = .null))) →
      alertsOf (Frontend.trigger Sample.numberToString (Sample.respond result)
          (Sample.typed "hi")).1.trace =
        ["API Error: Make sure Python API is running on port 5000!"] ∧
      resultsSetOf (Frontend.trigger Sample.numberToString (Sample.respond result)
          (Sample.typed "hi")).1.trace = [] ∧
      (Frontend.trigger Sample.numberToString (Sample.respond result)
          (Sample.typed "hi")).1.view.analysisResult = none ∧
      (Frontend.trigger Sample.numberToString (Sample.respond result)
          (Sample.typed "hi")).1.view.isAnalyzing = false := by
    intro result hbad
    have h := (C20_missing_detection_is_failure Sample.numberToString
      (Sample.respond result) (Sample.typed "hi") 200 result (by decide) rfl).1 hbad
    exact ⟨h.1, h.2.1, h.2.2.1, h.2.2.2.1⟩
  obtain ⟨ar, hset, -, -, -, hb, hs, hc, hr, -⟩ :=
    (C20_missing_detection_is_failure Sample.numberToString
      (Sample.respond (.object [("detection", .object [])])) (Sample.typed "hi") 200
      (.object [("detection", .object [])]) (by decide) rfl).2 _ [] rfl (by decide)
  refine ⟨?_, by decide⟩
  intro result hmem
  simp only [List.mem_cons, List.mem_singleton, List.not_mem_nil, or_false] at hmem
  apply hfail
  rcases hmem with h | h | h | h | h | h | h
  · exact Or.inl h
  · exact Or.inr (Or.inr (Or.inr (Or.inl ⟨_, h⟩)))
  · exact Or.inr (Or.inr (Or.inr (Or.inr (Or.inl ⟨_, h⟩))))
  · exact Or.inr (Or.inr (Or.inr (Or.inr (Or.inr (Or.inl ⟨_, h⟩)))))
  · exact Or.inr (Or.inr (Or.inl ⟨_, h⟩))
  · exact Or.inr (Or.inr (Or.inr (Or.inr (Or.inr (Or.inr
      ⟨_, h, Or.inl (by decide)⟩)))))
  · exact Or.inr (Or.inr (Or.inr (Or.inr (Or.inr (Or.inr
      ⟨_, h, Or.inr (Or.inr (by decide))⟩)))))

/-! ## The serialized text determines the text -/

/-- Reading back the first code point of an escaped text gives the code point that was
escaped and the rest. -/
theorem unquoteHead_quoteChar (c : Char) (x : List Char) :
    unquoteHead (quoteChar c ++ x) = some (c, x) := by
  have hc : Char.ofNat c.toNat = c := Char.ofNat_toNat c
  by_cases hlt : c.toNat < 32
  · generalize hn : c.toNat = n at hc hlt
    subst hc
    interval_cases n <;> rfl
  · by_cases h34 : c.toNat = 34
    · rw [← hc, h34]; rfl
    · by_cases h92 : c.toNat = 92
      · rw [← hc, h92]; rfl
      · have hq : quoteChar c = [c] := by
          unfold quoteChar
          simp only [beq_iff_eq]
          rw [if_neg (by omega), if_neg (by omega), if_neg (by omega), if_neg (by omega),
            if_neg (by omega), if_neg h34, if_neg h92, if_neg hlt]
        rw [hq]
        simp [unquoteHead, h92]

/-- Two texts with the same escaped form are the same text. -/
theorem flatMap_quoteChar_injective :
    ∀ (l1 l2 : List Char), l1.flatMap quoteChar = l2.flatMap quoteChar → l1 = l2
  | [], [], _ => rfl
  | [], b :: l2, h => by
    have := congrArg unquoteHead h
    simp only [List.flatMap_cons, List.flatMap_nil, unquoteHead_quoteChar] at this
    simp [unquoteHead] at this
  | a :: l1, [], h => by
    have := congrArg unquoteHead h
    simp only [List.flatMap_cons, List.flatMap_nil, unquoteHead_quoteChar] at this
    simp [unquoteHead] at this
  | a :: l1, b :: l2, h => by
    have := congrArg unquoteHead h
    simp only [List.flatMap_cons, unquoteHead_quoteChar, Option.some.injEq,
      Prod.mk.injEq] at this
    rw [this.1, flatMap_quoteChar_injective l1 l2 this.2]

/-- `QuoteJSONString` is injective. -/
theorem quoteJSONString_injective (s t : String)
    (h : quoteJSONString s = quoteJSONString t) : s = t := by
  unfold quoteJSONString at h
  have h1 := congrArg String.data h
  simp only [List.cons.injEq, true_and] at h1
  exact String.ext (flatMap_quoteChar_injective _ _ (List.append_cancel_right h1))

/-- The body of the `/analyze` request determines the text it was built from. -/
theorem stringify_text_injective (ns : Nat → String) (s t : String)
    (h : JSON_stringify ns (.object [("text", .string s)]) =
      JSON_stringify ns (.object [("text", .string t)])) : s = t := by
  rw [stringify_text_string, stringify_text_string] at h
  have h1 := congrArg String.data (Option.some.inj h)
  simp only [String.data_append, List.append_assoc] at h1
  exact quoteJSONString_injective s t
    (String.ext (List.append_cancel_right (List.append_cancel_left h1)))

/-- C21: trimming only decides the guard.  For every input with a character that is not
white space, the body of the `/analyze` request is the serialization of the input text
as it was entered, and that body determines the text, white space at both ends included;
and when the response has a detection object, the fields `input` and `originalResponse`
of the Analysis Result are the input text as it was entered. -/
theorem C21_text_is_used_untrimmed (ns : Nat → String) (b : Backend) (w : World)
    (hin : ∃ c ∈ w.view.testInput.data, isWhiteSpace c = false) :
    requestsOf (Frontend.trigger ns b w).1.trace =
        requestsOf w.trace ++
          [⟨"http://localhost:5000/api/analyze", "POST",
            [("Content-Type", "application/json")],
            some ("\x7b\"text\":" ++ quoteJSONString w.view.testInput ++ "\x7d")⟩] ∧
      (∀ t, JSON_stringify ns (.object [("text", .string t)]) =
          some ("\x7b\"text\":" ++ quoteJSONString w.view.testInput ++ "\x7d") →
        t = w.view.testInput) ∧
      (∀ status props dprops,
        b (analyzeRequest ns w.view.testInput) = .resolved ⟨status, .ok (.object props)⟩ →
        JSValue.lookup "detection" props = .object dprops →
        ∃ ar, (Frontend.trigger ns b w).1.view.analysisResult = some ar ∧
          ar.input = w.view.testInput ∧ ar.originalResponse = w.view.testInput) := by
  refine ⟨?_, ?_, ?_⟩
  · unfold Frontend.trigger
    rw [Frontend.run_runBiasAnalysis ns b _ w hin, ← stringify_text_string ns]
    cases (b (analyzeRequest ns w.view.testInput)).settle >>=
        Frontend.analysisObject w.view.testInput <;>
      simp [requestsOf, List.filterMap_append, analyzeRequest]
  · intro t ht
    rw [← stringify_text_string ns] at ht
    exact stringify_text_injective ns _ _ ht
  · intro status props dprops hresp hdet
    obtain ⟨ar, hobj, -, -, -, -, h5, h6⟩ :=
      Frontend.analysisObject_ok w.view.testInput props dprops hdet
    rw [Frontend.trigger_of_mapped ns b w ar hin (by rw [hresp]; exact hobj)]
    exact ⟨ar, rfl, h5, h6⟩

/-- C21, witness: the input has two blanks before `hi` and a blank and a line feed after
it; the body and the Analysis Result carry all of them. -/
theorem C21_witness :
    requestsOf (Frontend.trigger Sample.numberToString (Sample.respond Sample.fullResponse)
        (Sample.typed "  hi \n")).1.trace =
      [⟨"http://localhost:5000/api/analyze", "POST", [("Content-Type", "application/json")],
        some "\x7b\"text\":\"  hi \\n\"\x7d"⟩] ∧
    (Frontend.trigger Sample.numberToString (Sample.respond Sample.fullResponse)
        (Sample.typed "  hi \n")).1.view.analysisResult.map
          (fun r => (r.input, r.originalResponse)) = some ("  hi \n", "  hi \n") := by
  have h := C21_text_is_used_untrimmed Sample.numberToString
    (Sample.respond Sample.fullResponse) (Sample.typed "  hi \n") (by decide)
  obtain ⟨ar, hset, hi, ho⟩ := h.2.2 200 Sample.fullProps Sample.detectionProps rfl
    (by decide)
  refine ⟨?_, ?_⟩
  · rw [h.1]
    decide
  · rw [hset, Option.map, hi, ho]
    rfl

/-! ## Further properties of the client and of the view -/

/-- C22: the API client does not look at the HTTP status: for every operation of
`src/api-client.js` and of the frontend client, every argument and every status code,
when the body of the response parses as JSON the operation resolves with the parsed
body. -/
theorem C22_status_is_ignored (ns : Nat → String) (b : Backend) (w : World) (c : Call) :
    (∃ req, requestsOf ((c.prog ns).run b w).1.trace = requestsOf w.trace ++ [req] ∧
      ∀ status v, b req = .resolved ⟨status, .ok v⟩ → ((c.prog ns).run b w).2 = .ok v) ∧
    (∀ p, c.frontendProg ns = some p →
      ∃ req, requestsOf (p.run b w).1.trace = requestsOf w.trace ++ [req] ∧
        ∀ status v, b req = .resolved ⟨status, .ok v⟩ → (p.run b w).2 = .ok v) := by
  constructor
  · obtain ⟨req, hrun⟩ := run_call_api ns b w c
    rw [hrun]
    refine ⟨req, requestsOf_issue _ _, ?_⟩
    intro status v hv
    simp only [hv]
    rfl
  · intro p hp
    obtain ⟨req, hrun⟩ := run_call_app ns b w c p hp
    rw [hrun]
    refine ⟨req, requestsOf_issue _ _, ?_⟩
    intro status v hv
    simp only [hv]
    rfl

/-- C22, witness: a backend answers `detectBias("hi")` with status 500 and the body
`\x7b"error":"boom"\x7d`; both clients resolve with that body. -/
theorem C22_witness :
    ((ApiClient.BiasAPI.detectBias Sample.numberToString (.string "hi")).run
        (fun _ => .resolved ⟨500, .ok (.object [("error", .string "boom")])⟩)
        World.initial).2 = .ok (.object [("error", .string "boom")]) ∧
      ((Frontend.BiasAPI.detectBias Sample.numberToString (.string "hi")).run
        (fun _ => .resolved ⟨500, .ok (.object [("error", .string "boom")])⟩)
        World.initial).2 = .ok (.object [("error", .string "boom")]) := by
  obtain ⟨⟨req, -, h1⟩, h2⟩ := C22_status_is_ignored Sample.numberToString
    (fun _ => .resolved ⟨500, .ok (.object [("error", .string "boom")])⟩) World.initial
    (.detectBias (.string "hi"))
  obtain ⟨req2, -, h3⟩ := h2 _ rfl
  exact ⟨h1 500 _ rfl, h3 500 _ rfl⟩

/-- C23: the two copies agree.  For every argument, backend and state, `detectBias`,
`fullAnalysis` and `getStats` of `src/api-client.js` run exactly as the operations of the
same name of the frontend client: the same request is issued and the same result is
returned; they are the same programs.  The two copies of `runBiasAnalysis` end in the same view state with the same
settled promise, issue the same requests and set the same results, and their histories
are equal once the text of the alerts is blanked. -/
theorem C23_copies_agree (ns : Nat → String) (b : Backend) (w : World) :
    (∀ text, (ApiClient.BiasAPI.detectBias ns text).run b w =
      (Frontend.BiasAPI.detectBias ns text).run b w) ∧
    (∀ text, (ApiClient.BiasAPI.fullAnalysis ns text).run b w =
      (Frontend.BiasAPI.fullAnalysis ns text).run b w) ∧
    ApiClient.BiasAPI.getStats.run b w = Frontend.BiasAPI.getStats.run b w ∧
    (ApiClient.BiasAPI.detectBias ns = Frontend.BiasAPI.detectBias ns ∧
      ApiClient.BiasAPI.fullAnalysis ns = Frontend.BiasAPI.fullAnalysis ns ∧
      ApiClient.BiasAPI.getStats = Frontend.BiasAPI.getStats) ∧
    (∀ t,
      ((ApiClient.runBiasAnalysis ns t).run b w).1.view =
          ((Frontend.runBiasAnalysis ns t).run b w).1.view ∧
        ((ApiClient.runBiasAnalysis ns t).run b w).2 =
          ((Frontend.runBiasAnalysis ns t).run b w).2 ∧
        requestsOf ((ApiClient.runBiasAnalysis ns t).run b w).1.trace =
          requestsOf ((Frontend.runBiasAnalysis ns t).run b w).1.trace ∧
        resultsSetOf ((ApiClient.runBiasAnalysis ns t).run b w).1.trace =
          resultsSetOf ((Frontend.runBiasAnalysis ns t).run b w).1.trace ∧
        ((ApiClient.runBiasAnalysis ns t).run b w).1.trace.map Event.withoutAlertText =
          ((Frontend.runBiasAnalysis ns t).run b w).1.trace.map Event.withoutAlertText) := by
  refine ⟨?_, ?_, ?_, ⟨rfl, rfl, rfl⟩, ?_⟩
  · intro text
    rw [run_detectBias_api, run_detectBias_app]
  · intro text
    rw [run_fullAnalysis_api, Frontend.run_fullAnalysis]
  · rw [run_getStats_api, run_getStats_app]
  · intro t
    by_cases hblank : ∀ c ∈ t.data, isWhiteSpace c = true
    · rw [ApiClient.runBiasAnalysis_blank_api ns t hblank,
        Frontend.runBiasAnalysis_blank ns t hblank]
      exact ⟨rfl, rfl, rfl, rfl, rfl⟩
    · have hin : ∃ c ∈ t.data, isWhiteSpace c = false := by
        simpa using hblank
      rw [ApiClient.run_runBiasAnalysis_api ns b t w hin,
        Frontend.run_runBiasAnalysis ns b t w hin, analysisObject_api_eq]
      cases (b (analyzeRequest ns t)).settle >>= Frontend.analysisObject t with
      | ok ar => exact ⟨rfl, rfl, rfl, rfl, rfl⟩
      | error e =>
        refine ⟨rfl, rfl, ?_, ?_, ?_⟩
        · simp [requestsOf, List.filterMap_append]
        · simp [resultsSetOf, List.filterMap_append]
        · simp [Event.withoutAlertText]

/-- C23, witness: against a backend that is down the two copies of `runBiasAnalysis`
raise one alert each, with different texts, and end in the same view state. -/
theorem C23_witness :
    alertsOf ((ApiClient.runBiasAnalysis Sample.numberToString "hi").run Sample.down
        (Sample.typed "hi")).1.trace =
      ["Failed to analyze. Make sure the API is running!"] ∧
    alertsOf ((Frontend.runBiasAnalysis Sample.numberToString "hi").run Sample.down
        (Sample.typed "hi")).1.trace =
      ["API Error: Make sure Python API is running on port 5000!"] ∧
    ((ApiClient.runBiasAnalysis Sample.numberToString "hi").run Sample.down
        (Sample.typed "hi")).1.view =
      ((Frontend.runBiasAnalysis Sample.numberToString "hi").run Sample.down
        (Sample.typed "hi")).1.view :=
  ⟨by decide, by decide,
    ((C23_copies_agree Sample.numberToString Sample.down (Sample.typed "hi")).2.2.2.2
      "hi").1⟩

/-- C24: the six entries of `biasTypes` have pairwise distinct ids, namely
`confirmation`, `anchoring`, `availability`, `groupthink`, `recency` and `survivorship`.
For each of these ids the lookup of the render callback returns the one entry with that
id, and reading its name succeeds; for every other value the lookup returns `undefined`
and reading `name` throws a `TypeError`. -/
theorem C24_bias_lookup (biasId : JSValue) :
    Frontend.biasTypes.map (fun b => b.id) =
        ["confirmation", "anchoring", "availability", "groupthink", "recency",
          "survivorship"] ∧
      (Frontend.biasTypes.map (fun b => b.id)).Nodup ∧
      (∀ id ∈ Frontend.biasTypes.map (fun b => b.id), biasId = .string id →
        ∃ bias ∈ Frontend.biasTypes, Frontend.findBias biasId = some bias ∧ bias.id = id ∧
          (∀ other ∈ Frontend.biasTypes, other.id = id → other = bias) ∧
          Frontend.biasName biasId = .ok bias.name) ∧
      ((∀ id ∈ Frontend.biasTypes.map (fun b => b.id), biasId ≠ .string id) →
        Frontend.findBias biasId = none ∧
        Frontend.biasName biasId =
          .error (JSValue.propertyReadError "undefined" "name")) := by
  refine ⟨by decide, by decide, ?_, ?_⟩
  · intro id hid hb
    subst hb
    revert id
    decide
  · intro hout
    have hnone : Frontend.findBias biasId = none := by
      unfold Frontend.findBias
      rw [List.find?_eq_none]
      intro bias hbias
      cases biasId with
      | string s =>
        have hne : bias.id ≠ s := fun h =>
          hout bias.id (List.mem_map.mpr ⟨bias, hbias, rfl⟩) (by rw [h])
        simp [Frontend.idStrictEquals, hne]
      | undefined => simp [Frontend.idStrictEquals]
      | null => simp [Frontend.idStrictEquals]
      | bool x => simp [Frontend.idStrictEquals]
      | number x => simp [Frontend.idStrictEquals]
      | array x => simp [Frontend.idStrictEquals]
      | object x => simp [Frontend.idStrictEquals]
    exact ⟨hnone, by simp [Frontend.biasName, hnone]⟩

/-- C24, witness: the id `recency` is found with the name `Recency Bias`; the id `halo`
is not found and its name cannot be read. -/
theorem C24_witness :
    Frontend.biasName (.string "recency") = .ok "Recency Bias" ∧
      Frontend.findBias (.string "halo") = none ∧
      Frontend.biasName (.string "halo") =
        .error (JSValue.propertyReadError "undefined" "name") := by
  obtain ⟨bias, -, hfind, -, -, hname⟩ :=
    (C24_bias_lookup (.string "recency")).2.2.1 "recency" (by decide) rfl
  have hb : bias.name = "Recency Bias" := by
    have h2 : Frontend.findBias (.string "recency") =
        some ⟨"recency", "Recency Bias", "Recent information weighted too heavily", "medium",
          ["Stock prediction from latest data only",
            "Customer behavior based on last interaction"], 88, "#10b981"⟩ := by decide
    rw [h2] at hfind
    rw [← Option.some.inj hfind]
  rw [hname, hb]
  exact ⟨rfl, (C24_bias_lookup (.string "halo")).2.2.2 (by decide)⟩

end BiasDetector
